import Mathlib

/-!
Formal model of the multi-client chat server (`src/server.c` of the
MultiClient-Chat-systems repository).

C strings are modelled as `List Char`.  The external profanity filter
(`run_filter_and_get_output`, which shells out to `./filter`) is modelled as
an arbitrary function parameter `s : Str → Str`, matching the spec's
treatment of the sanitizer as an injected collaborator.  File descriptors
are replaced by slot numbers: a write of `line` to `clients[k].to_child_fd`
becomes the pair `(k, line)` in the output list, in program order, with the
trailing newline bytes included exactly as written.  The per-room log files
(`logs/<room>.log`) are an association list from room name to file content.
-/

set_option linter.unusedVariables false

/-- C strings are byte sequences; we model them as lists of characters. -/
abbrev Str := List Char

def nl : Str := ['\n']

/- Protocol tags (the command words of the control-plane protocol). -/
def joinTag : Str := "JOIN".toList
def msgTag : Str := "MSG".toList
def pmTag : Str := "PM".toList
def appealTag : Str := "APPEAL".toList
def historyTag : Str := "HISTORY".toList
def roomsTag : Str := "ROOMS".toList
def quitTag : Str := "QUIT".toList
def adminTag : Str := "ADMIN".toList
def kickTag : Str := "KICK".toList
def muteTag : Str := "MUTE".toList
def unmuteTag : Str := "UNMUTE".toList
def bcastTag : Str := "BROADCAST".toList
def usersTag : Str := "USERS".toList

/-- `ADMIN_PASSWORD` from server.c. -/
def adminPassword : Str := "admin123".toList

/-- The reserved fan-out room name. -/
def globalRoom : Str := "global".toList

/-- The room registered by `main` before the accept loop starts. -/
def lobbyRoom : Str := "lobby".toList

def serverSender : Str := "server".toList
def adminSender : Str := "admin".toList

/-- `MAX_CLIENTS` from server.c. -/
def MAX_CLIENTS : Nat := 128

/-- `MAX_ROOMS` from server.c. -/
def MAX_ROOMS : Nat := 128

/-- Decimal rendering, as produced by `%d` in `writef` for the counts. -/
def natStr (n : Nat) : Str := Nat.toDigits 10 n

/- Server reply lines, byte for byte as the `writef` calls produce them. -/
def authFailedMsg : Str := "Admin auth failed\n".toList
def noActionMsg : Str := "Admin: no action\n".toList
def adminMalformedMsg : Str := "Admin malformed\n".toList
def mutedReplyMsg : Str := "You are muted.\n".toList
def mutedByAdminMsg : Str := "You are muted by admin\n".toList
def unmutedByAdminMsg : Str := "You are unmuted by admin\n".toList
def kickedMsg : Str := "You have been kicked by admin\n".toList
def kickUsageMsg : Str := "KICK requires username\n".toList
def muteUsageMsg : Str := "MUTE requires username\n".toList
def unmuteUsageMsg : Str := "UNMUTE requires username\n".toList
def userNotFoundMsg : Str := "User not found\n".toList
def alreadySentMsg : Str := "Your appeal was already sent to admins recently.\n".toList
def noAdminsMsg : Str := "No admins currently online. Try again later.\n".toList
def noRoomsMsg : Str := "No rooms\n".toList
def goodbyeMsg : Str := "Goodbye\n".toList
def serverFullMsg : Str := "Server full\n".toList
def joinedNotice : Str := "a new user has joined".toList
def welcomeBanner : Str := "Welcome to MultiChat! Use /nick, /join, /pm, /rooms\n".toList

def welcomeMsg (u room : Str) : Str :=
  "Welcome ".toList ++ u ++ " to ".toList ++ room ++ nl

def pmLine (sender filtered : Str) : Str :=
  "[PM] ".toList ++ sender ++ " -> you: ".toList ++ filtered ++ nl

def pmSentMsg (toName : Str) : Str :=
  "PM sent to ".toList ++ toName ++ nl

def pmNotFoundMsg (toName : Str) : Str :=
  "User ".toList ++ toName ++ " not found\n".toList

def appealLine (sender text : Str) : Str :=
  "[APPEAL] ".toList ++ sender ++ ": ".toList ++ text ++ nl

def appealSentMsg (n : Nat) : Str :=
  "Your appeal was sent to ".toList ++ natStr n ++ " admin(s).\n".toList

def noHistoryMsg (room : Str) : Str :=
  "No history for ".toList ++ room ++ nl

def unknownCmdMsg (w : Str) : Str :=
  "Unknown command: ".toList ++ w ++ nl

def unknownActionMsg (w : Str) : Str :=
  "Unknown admin action: ".toList ++ w ++ nl

def roomsHeaderMsg (n : Nat) : Str :=
  "Rooms (".toList ++ natStr n ++ "):\n".toList

def dashItem (r : Str) : Str :=
  " - ".toList ++ r ++ nl

def activeUsersMsg (n : Nat) : Str :=
  "Active users: ".toList ++ natStr n ++ nl

/-- The line `"[room] sender: text"` built by `broadcast_to_room` (no newline;
the newline is added by `writef "%s\n"` and by `append_room_log`). -/
def bcastLine (room sender filtered : Str) : Str :=
  "[".toList ++ room ++ "] ".toList ++ sender ++ ": ".toList ++ filtered

/-- `trim_newline` from server.c: truncate at the first CR or LF. -/
def trim_newline (s : Str) : Str :=
  s.takeWhile (fun c => !(c == '\r' || c == '\n'))

/-- One step of `strtok_r`'s token extraction: the token up to the first
occurrence of the delimiter, and the remainder just past that delimiter
(`save` points one past the NUL that replaced the delimiter; if the
delimiter does not occur the remainder is empty). -/
def tokSplit (d : Char) : Str → Str × Str
  | [] => ([], [])
  | c :: s =>
    if c == d then ([], s)
    else ((c :: (tokSplit d s).1), (tokSplit d s).2)

/-- `strtok_r(s, d, &save)`: skip leading delimiters, then return the token
and the remainder, or `none` when only delimiters remain. -/
def strtok1 (d : Char) (s : Str) : Option (Str × Str) :=
  match s.dropWhile (fun c => c == d) with
  | [] => none
  | c :: r => some (tokSplit d (c :: r))

/-- `strchr(s, d)` followed by `*sp = '\0'; sp + 1`: split at the first
occurrence of `d`, or `none` when `d` does not occur. -/
def splitAtFirst (d : Char) : Str → Option (Str × Str)
  | [] => none
  | c :: rest =>
    if c == d then some ([], rest)
    else
      match splitAtFirst d rest with
      | some (a, b) => some (c :: a, b)
      | none => none

/-- One slot of the `clients[]` array. Channel fds and the pid are not
modelled; writes to `to_child_fd` become output pairs. -/
structure ClientSt where
  username : Str
  room : Str
  connected : Bool
  muted : Bool
  is_admin : Bool
deriving DecidableEq, Repr

/-- The broker's shared mutable state: the `clients[]` array, the `rooms[]`
table (with `room_count` as the list length), the `last_appeal_msg[]` array,
and the per-room log files. -/
structure ServerState where
  clients : List ClientSt
  rooms : List Str
  lastAppeal : List Str
  logs : List (Str × Str)
deriving DecidableEq, Repr

def initClient : ClientSt :=
  { username := [], room := [], connected := false, muted := false, is_admin := false }

/-- Replace slot `i` by `f` of its old value (no-op when out of range, which
never happens for the fixed-size C array). -/
def setClient : List ClientSt → Nat → (ClientSt → ClientSt) → List ClientSt
  | [], _, _ => []
  | c :: cs, 0, f => f c :: cs
  | c :: cs, n + 1, f => c :: setClient cs n f

/-- Slot `i` of the clients array (the C array index is always in range). -/
def getClient (st : ServerState) (i : Nat) : ClientSt :=
  (st.clients[i]?).getD initClient

/-- Index scan with accumulator, mirroring the C `for` loops that return the
first index satisfying a predicate. -/
def findIdxFrom (p : ClientSt → Bool) : List ClientSt → Nat → Option Nat
  | [], _ => none
  | c :: cs, n => if p c then some n else findIdxFrom p cs (n + 1)

/-- `find_client_by_name`: first connected slot whose username matches. -/
def find_client_by_name (cs : List ClientSt) (name : Str) : Option Nat :=
  findIdxFrom (fun c => c.connected && c.username == name) cs 0

/-- `find_free_slot`: first slot with `connected == false`. -/
def find_free_slot (cs : List ClientSt) : Option Nat :=
  findIdxFrom (fun c => !c.connected) cs 0

/-- Count of slots satisfying a predicate (the counting loops). -/
def countIf (p : ClientSt → Bool) : List ClientSt → Nat
  | [] => 0
  | c :: cs => (if p c then 1 else 0) + countIf p cs

def countConnected (cs : List ClientSt) : Nat :=
  countIf (fun c => c.connected) cs

/-- The write loops: deliver `line` to every slot satisfying `p`, tagging
each delivery with its slot index. -/
def deliverIf (p : ClientSt → Bool) (line : Str) : List ClientSt → Nat → List (Nat × Str)
  | [], _ => []
  | c :: cs, k => (if p c then [(k, line)] else []) ++ deliverIf p line cs (k + 1)

/-- `add_room_if_missing` from server.c: ignore empty names and known rooms;
append (truncated to 63 bytes by `strncpy`) only while below `MAX_ROOMS` —
silently doing nothing once the table is full. -/
def add_room_if_missing (rooms : List Str) (r : Str) : List Str :=
  if r = [] then rooms
  else if r ∈ rooms then rooms
  else if rooms.length < MAX_ROOMS then rooms ++ [r.take 63]
  else rooms

/-- Lookup of a room's log file content. -/
def logLookup : List (Str × Str) → Str → Option Str
  | [], _ => none
  | (r, c) :: rest, room => if r = room then some c else logLookup rest room

/-- Append raw bytes to a room's log file, creating it when absent
(`O_CREAT | O_APPEND`). -/
def logAppendFile : List (Str × Str) → Str → Str → List (Str × Str)
  | [], room, data => [(room, data)]
  | (r, c) :: rest, room, data =>
    if r = room then (r, c ++ data) :: rest
    else (r, c) :: logAppendFile rest room data

/-- `append_room_log`: write the message followed by a newline byte. -/
def append_room_log (logs : List (Str × Str)) (room msg : Str) : List (Str × Str) :=
  logAppendFile logs room (msg ++ nl)

/-- `broadcast_to_room` from server.c: ensure the room exists, run the
filter, build `"[room] sender: text"`, append it to the room log, and write
it to every connected client when the room is `"global"`, otherwise to every
connected client whose current room matches. -/
def broadcast_to_room (s : Str → Str) (st : ServerState) (room sender msg : Str) :
    ServerState × List (Nat × Str) :=
  let rooms1 := add_room_if_missing st.rooms room
  let line := bcastLine room sender (s msg)
  let st1 := { st with rooms := rooms1, logs := append_room_log st.logs room line }
  let outs :=
    if room = globalRoom then
      deliverIf (fun c => c.connected) (line ++ nl) st1.clients 0
    else
      deliverIf (fun c => c.connected && c.room == room) (line ++ nl) st1.clients 0
  (st1, outs)

/-- `send_private`: the first connected client whose username equals `toName`
receives the sanitized PM line; `none` when no such client exists. -/
def send_private (s : Str → Str) (cs : List ClientSt) (sender toName msg : Str) :
    Option (Nat × Str) :=
  (find_client_by_name cs toName).map (fun j => (j, pmLine sender (s msg)))

/-- The structured control message recovered by the broker's tokenizer
(`handle_parent_messages`, lines 401-404 plus the per-branch `strtok_r`
calls).  `dropped` is the silent `continue` taken when a required token is
missing. -/
inductive Cmd where
  | join (u room : Str)
  | msg (u room text : Str)
  | pm (sender toName text : Str)
  | appeal (sender text : Str)
  | history (room : Str)
  | roomsQ
  | quitC
  | adminC (rest : Str)
  | unknown (w : Str)
  | dropped
deriving DecidableEq, Repr

/-- The tokenizing front half of `handle_parent_messages`: trim the line,
take the command word, then the per-command `strtok_r` fields.  The ADMIN
branch keeps the raw remainder (its own parse is `admin_split`). -/
def parseLine (buf : Str) : Cmd :=
  match strtok1 '|' (trim_newline buf) with
  | none => .dropped
  | some (cmd, r1) =>
    if cmd = joinTag then
      match strtok1 '|' r1 with
      | none => .dropped
      | some (u, r2) =>
        match strtok1 '|' r2 with
        | none => .dropped
        | some (room, _) => .join u room
    else if cmd = msgTag then
      match strtok1 '|' r1 with
      | none => .dropped
      | some (u, r2) =>
        match strtok1 '|' r2 with
        | none => .dropped
        | some (room, r3) =>
          match strtok1 '|' r3 with
          | none => .dropped
          | some (text, _) => .msg u room text
    else if cmd = pmTag then
      match strtok1 '|' r1 with
      | none => .dropped
      | some (sender, r2) =>
        match strtok1 '|' r2 with
        | none => .dropped
        | some (toName, r3) =>
          match strtok1 '|' r3 with
          | none => .dropped
          | some (text, _) => .pm sender toName text
    else if cmd = appealTag then
      match strtok1 '|' r1 with
      | none => .dropped
      | some (sender, r2) =>
        match strtok1 '\n' r2 with
        | none => .dropped
        | some (text, _) => .appeal sender text
    else if cmd = historyTag then
      match strtok1 '|' r1 with
      | none => .dropped
      | some (room, _) => .history room
    else if cmd = roomsTag then .roomsQ
    else if cmd = quitTag then .quitC
    else if cmd = adminTag then .adminC r1
    else .unknown cmd

/-- The robust ADMIN payload parse (server.c lines 508-550): returns
`(username, password, action_word?, action_args?, lazy_remainder)`, where
the remainder feeds the per-action `strtok_r(NULL, "|", &save)` fallback. -/
def admin_split (r : Str) : Option (Str × Str × Option Str × Option Str × Str) :=
  match strtok1 '|' r with
  | none => none
  | some (username, r2) =>
    match strtok1 '|' r2 with
    | none => none
    | some (third, r3) =>
      match strtok1 '|' r3 with
      | none =>
        match splitAtFirst ' ' third with
        | some (pw, awa) =>
          match splitAtFirst ' ' awa with
          | some (w, rest) => some (username, pw, some w, some rest, [])
          | none => some (username, pw, some awa, none, [])
        | none => some (username, third, none, none, [])
      | some (a, r4) =>
        match splitAtFirst ' ' a with
        | some (w, rest) => some (username, third, some w, some rest, r4)
        | none => some (username, third, some a, none, r4)

/-- The per-action argument: `action_args ? action_args : strtok_r(NULL, "|", &save)`. -/
def admin_args (aa : Option Str) (rem : Str) : Option Str :=
  aa <|> (strtok1 '|' rem).map (fun p => p.1)

/-- The `(name, password, action, args)` tuple the ADMIN wire payload is
parsed into, with the lazy args token resolved. -/
def admin_tuple (r : Str) : Option (Str × Str × Option Str × Option Str) :=
  (admin_split r).map (fun t => (t.1, t.2.1, t.2.2.1, admin_args t.2.2.2.1 t.2.2.2.2))

/-- Grant the admin capability to slot `i` (`clients[i].is_admin = true`). -/
def adminGrant (st : ServerState) (i : Nat) : ServerState :=
  { st with clients := setClient st.clients i (fun c => { c with is_admin := true }) }

/-- The per-user listing of the USERS admin query. -/
def usersListing (i : Nat) : List ClientSt → List (Nat × Str)
  | [] => []
  | c :: cs =>
    (if c.connected ∧ c.username ≠ [] then
      [(i, " - ".toList ++ c.username ++ " (room: ".toList ++
        (if c.room = [] then "none".toList else c.room) ++ ")\n".toList)]
    else []) ++ usersListing i cs

/-- Authentication and the action dispatch of the ADMIN branch (server.c
lines 552-631), taking the already-parsed password, action word, and
resolved argument. -/
def adminDispatch (s : Str → Str) (st : ServerState) (i : Nat)
    (pw : Str) (aw : Option Str) (args : Option Str) :
    ServerState × List (Nat × Str) :=
  if pw ≠ adminPassword then (st, [(i, authFailedMsg)])
  else
    let st1 := adminGrant st i
    match aw with
    | none => (st1, [(i, noActionMsg)])
    | some w =>
      if w = kickTag then
        match args with
        | none => (st1, [(i, kickUsageMsg)])
        | some target =>
          match find_client_by_name st1.clients target with
          | some idx =>
            ({ st1 with clients := setClient st1.clients idx (fun c => { c with connected := false }) },
             [(idx, kickedMsg)])
          | none => (st1, [(i, userNotFoundMsg)])
      else if w = muteTag then
        match args with
        | none => (st1, [(i, muteUsageMsg)])
        | some target =>
          match find_client_by_name st1.clients target with
          | some idx =>
            ({ st1 with clients := setClient st1.clients idx (fun c => { c with muted := true }) },
             [(idx, mutedByAdminMsg)])
          | none => (st1, [(i, userNotFoundMsg)])
      else if w = unmuteTag then
        match args with
        | none => (st1, [(i, unmuteUsageMsg)])
        | some target =>
          match find_client_by_name st1.clients target with
          | some idx =>
            ({ st1 with clients := setClient st1.clients idx (fun c => { c with muted := false }) },
             [(idx, unmutedByAdminMsg)])
          | none => (st1, [(i, userNotFoundMsg)])
      else if w = bcastTag then
        broadcast_to_room s st1 globalRoom adminSender (args.getD [])
      else if w = roomsTag then
        if st1.rooms = [] then (st1, [(i, noRoomsMsg)])
        else (st1, (i, roomsHeaderMsg st1.rooms.length) :: st1.rooms.map (fun r => (i, dashItem r)))
      else if w = usersTag then
        (st1, (i, activeUsersMsg (countConnected st1.clients)) :: usersListing i st1.clients)
      else (st1, [(i, unknownActionMsg w)])

/-- The whole ADMIN branch: parse failure (`!username || !third`) replies
"Admin malformed"; otherwise authenticate and dispatch. -/
def adminStep (s : Str → Str) (st : ServerState) (i : Nat) (r : Str) :
    ServerState × List (Nat × Str) :=
  match admin_split r with
  | none => (st, [(i, adminMalformedMsg)])
  | some t => adminDispatch s st i t.2.1 t.2.2.1 (admin_args t.2.2.2.1 t.2.2.2.2)

/-- JOIN: store the (truncated) name and room, register the room, reply
Welcome, then broadcast the join notice to the room. -/
def joinStep (s : Str → Str) (st : ServerState) (i : Nat) (u room : Str) :
    ServerState × List (Nat × Str) :=
  let st1 := { st with
      clients := setClient st.clients i
        (fun c => { c with username := u.take 63, room := room.take 63 }),
      rooms := add_room_if_missing st.rooms room }
  let res := broadcast_to_room s st1 room serverSender joinedNotice
  (res.1, (i, welcomeMsg u room) :: res.2)

/-- MSG: a muted sender gets only the muted reply; otherwise the message is
broadcast (which filters, logs and delivers). -/
def msgStep (s : Str → Str) (st : ServerState) (i : Nat) (u room text : Str) :
    ServerState × List (Nat × Str) :=
  if (getClient st i).muted then (st, [(i, mutedReplyMsg)])
  else broadcast_to_room s st room u text

/-- PM: deliver to the first connected name match only, and acknowledge or
report failure to the sender. -/
def pmStep (s : Str → Str) (st : ServerState) (i : Nat) (sender toName text : Str) :
    ServerState × List (Nat × Str) :=
  match send_private s st.clients sender toName text with
  | some d => (st, [d, (i, pmSentMsg toName)])
  | none => (st, [(i, pmNotFoundMsg toName)])

/-- The forwarding half of the APPEAL branch: write the appeal line to every
connected admin, then report the count (or its absence) to the sender. -/
def appealForward (st : ServerState) (i : Nat) (sender text : Str) :
    ServerState × List (Nat × Str) :=
  let fwd := deliverIf (fun c => c.connected && c.is_admin) (appealLine sender text) st.clients 0
  let reply := if fwd.length = 0 then noAdminsMsg else appealSentMsg fwd.length
  (st, fwd ++ [(i, reply)])

/-- APPEAL: resolve the sender slot by name; an identical nonempty stored
appeal suppresses forwarding; otherwise store the text (truncated to 511
bytes by `strncpy`) and forward. -/
def appealStep (st : ServerState) (i : Nat) (sender text : Str) :
    ServerState × List (Nat × Str) :=
  match find_client_by_name st.clients sender with
  | some j =>
    let la := (st.lastAppeal[j]?).getD []
    if la ≠ [] ∧ la = text then (st, [(i, alreadySentMsg)])
    else
      appealForward { st with lastAppeal := st.lastAppeal.set j (text.take 511) } i sender text
  | none => appealForward st i sender text

/-- HISTORY: stream the log file verbatim, or report its absence. -/
def historyStep (st : ServerState) (i : Nat) (room : Str) :
    ServerState × List (Nat × Str) :=
  match logLookup st.logs room with
  | none => (st, [(i, noHistoryMsg room)])
  | some content => (st, [(i, content)])

/-- ROOMS: list all room names, or "No rooms" when the table is empty. -/
def roomsStep (st : ServerState) (i : Nat) : ServerState × List (Nat × Str) :=
  if st.rooms = [] then (st, [(i, noRoomsMsg)])
  else (st, st.rooms.map (fun r => (i, r ++ nl)))

/-- QUIT: say goodbye and free the slot. -/
def quitStep (st : ServerState) (i : Nat) : ServerState × List (Nat × Str) :=
  ({ st with clients := setClient st.clients i (fun c => { c with connected := false }) },
   [(i, goodbyeMsg)])

/-- The dispatch table of the broker on one structured command from slot `i`. -/
def execCmd (s : Str → Str) (st : ServerState) (i : Nat) : Cmd → ServerState × List (Nat × Str)
  | .join u room => joinStep s st i u room
  | .msg u room text => msgStep s st i u room text
  | .pm sender toName text => pmStep s st i sender toName text
  | .appeal sender text => appealStep st i sender text
  | .history room => historyStep st i room
  | .roomsQ => roomsStep st i
  | .quitC => quitStep st i
  | .adminC rest => adminStep s st i rest
  | .unknown w => (st, [(i, unknownCmdMsg w)])
  | .dropped => (st, [])

/-- Processing of one line read from slot `i`'s pipe by
`handle_parent_messages` (the sanitizer collaborator is the parameter `s`). -/
def handle_parent_message (s : Str → Str) (st : ServerState) (i : Nat) (buf : Str) :
    ServerState × List (Nat × Str) :=
  execCmd s st i (parseLine buf)

/-- The result of `accept_and_spawn` toward the new connection. -/
inductive AcceptResult where
  | rejected (reply : Str)
  | accepted (slot : Nat) (banner : Str)
deriving DecidableEq, Repr

/-- `accept_and_spawn`: a full registry replies "Server full" and closes the
connection without allocating; otherwise the first free slot is populated
(name and room cleared, `connected` set, `muted` cleared — `is_admin` and
the last-appeal record are left as the previous occupant had them, exactly
as in the C code). -/
def accept_and_spawn (st : ServerState) : ServerState × AcceptResult :=
  match find_free_slot st.clients with
  | none => (st, .rejected serverFullMsg)
  | some slot =>
    let reset := fun (c : ClientSt) =>
      { c with username := ([] : Str), room := ([] : Str), connected := true, muted := false }
    ({ st with clients := setClient st.clients slot reset }, .accepted slot welcomeBanner)

/-- Teardown of a slot whose pipe read returned `<= 0`. -/
def disconnectStep (st : ServerState) (i : Nat) : ServerState :=
  { st with clients := setClient st.clients i (fun c => { c with connected := false }) }

/-- The broker state right after `main`'s initialization: all slots free and
cleared, the room table holding exactly `"lobby"`, empty appeal records. -/
def initState : ServerState :=
  { clients := List.replicate MAX_CLIENTS initClient,
    rooms := add_room_if_missing [] lobbyRoom,
    lastAppeal := List.replicate MAX_CLIENTS [],
    logs := [] }

/-- Broker states reachable from startup: any interleaving of message
handling (with any sanitizer behavior), accepted connections, and
disconnect teardowns. -/
inductive Reachable : ServerState → Prop where
  | init : Reachable initState
  | msg (st : ServerState) (s : Str → Str) (i : Nat) (buf : Str) :
      Reachable st → Reachable (handle_parent_message s st i buf).1
  | accept (st : ServerState) : Reachable st → Reachable (accept_and_spawn st).1
  | disconnect (st : ServerState) (i : Nat) : Reachable st → Reachable (disconnectStep st i)

/-- Token hygiene for a pipe-delimited field: nonempty and free of the
delimiter and line-terminator bytes (the wire grammar cannot transport
these; see the spec's delimiter-escaping caveat). -/
def cleanTok (xs : Str) : Prop :=
  xs ≠ [] ∧ '|' ∉ xs ∧ '\r' ∉ xs ∧ '\n' ∉ xs

/-- Hygiene for the APPEAL free-text field, which may contain pipes. -/
def cleanTxt (xs : Str) : Prop :=
  xs ≠ [] ∧ '\r' ∉ xs ∧ '\n' ∉ xs

instance (xs : Str) : Decidable (cleanTok xs) := by unfold cleanTok; infer_instance
instance (xs : Str) : Decidable (cleanTxt xs) := by unfold cleanTxt; infer_instance

/- Wire shapes of the control-plane protocol. -/
def wire1 (tag a : Str) : Str := tag ++ '|' :: a
def wire2 (tag a b : Str) : Str := tag ++ '|' :: (a ++ '|' :: b)
def wire3 (tag a b c : Str) : Str := tag ++ '|' :: (a ++ '|' :: (b ++ '|' :: c))

/-- The fully pipe-delimited ADMIN payload `name|password|ACTION|args`. -/
def payloadPiped (n pw act args : Str) : Str :=
  n ++ '|' :: (pw ++ '|' :: (act ++ '|' :: args))

/-- The hybrid ADMIN payload `name|password ACTION args` (the shape the
admin front-end emits). -/
def payloadHybrid (n pw act args : Str) : Str :=
  n ++ '|' :: (pw ++ ' ' :: (act ++ ' ' :: args))

/-- The `ROOMS|` wire line emitted by the worker for `/rooms`. -/
def roomsWire : Str := wire1 roomsTag []

/-- The state after an admin at slot `a` issues MUTE for the user at slot
`i`: the admin slot gains `is_admin`, the target slot gains `muted`. -/
def muteState (st : ServerState) (a i : Nat) : ServerState :=
  { adminGrant st a with
      clients := setClient (adminGrant st a).clients i (fun c => { c with muted := true }) }

/-- The state after the admin at slot `a` subsequently issues UNMUTE for the
user at slot `i`. -/
def unmuteState (st : ServerState) (a i : Nat) : ServerState :=
  { adminGrant (muteState st a i) a with
      clients := setClient (adminGrant (muteState st a i) a).clients i
        (fun c => { c with muted := false }) }

/- Concrete states used by witnesses and counterexamples. -/

/-- A connected session that has authenticated as admin. -/
def demoAdmin : ClientSt :=
  { username := "a".toList, room := "lobby".toList, connected := true,
    muted := false, is_admin := true }

/-- A connected ordinary session named "u". -/
def demoUser : ClientSt :=
  { username := "u".toList, room := "lobby".toList, connected := true,
    muted := false, is_admin := false }

/-- A two-session broker state: slot 0 an admin, slot 1 the user "u". -/
def demoSt : ServerState :=
  { clients := [demoAdmin, demoUser], rooms := [lobbyRoom],
    lastAppeal := [[], []], logs := [] }

/-- A state whose registry is completely full (every slot connected). -/
def demoFullSt : ServerState :=
  { clients := [demoAdmin, demoUser], rooms := [lobbyRoom],
    lastAppeal := [[], []], logs := [] }

/-- A state with a free slot at index 1. -/
def demoFreeSt : ServerState :=
  { clients := [demoAdmin, { demoUser with connected := false }],
    rooms := [lobbyRoom], lastAppeal := [[], []], logs := [] }

/-- An appeal text of 512 bytes — one byte longer than the 511 bytes the
`strncpy` into `last_appeal_msg` can retain. -/
def longAppealText : Str := List.replicate 512 'x'

/-- The appeal wire line carrying the 512-byte text from user "u". -/
def longAppealWire : Str := wire2 appealTag ("u".toList) longAppealText

/-- A room table holding `MAX_ROOMS` distinct names (lengths 1..128, all 'a'). -/
def fullRoomTable : List Str :=
  (List.range MAX_ROOMS).map (fun n => List.replicate (n + 1) 'a')

/-- A one-session state whose room table is full. -/
def fullRoomsSt : ServerState :=
  { clients := [demoUser], rooms := fullRoomTable, lastAppeal := [[]], logs := [] }

/-- A state with a populated log for room "dev". -/
def demoLogSt : ServerState :=
  { clients := [demoAdmin, demoUser], rooms := [lobbyRoom],
    lastAppeal := [[], []],
    logs := [("dev".toList, "[dev] u: hi\n".toList)] }

/-- The byte content of a log file after appending the given messages in
order to an initially absent file: each message followed by the newline
byte `append_room_log` writes. -/
def concatLines : List Str → Str
  | [] => []
  | m :: rest => (m ++ nl) ++ concatLines rest

/- ------------------------------------------------------------------ -/
/- Lemmas: tokenizer computation. -/
/- ------------------------------------------------------------------ -/

theorem notMem_append {c : Char} {a b : Str} (ha : c ∉ a) (hb : c ∉ b) :
    c ∉ a ++ b := by
  intro h
  rcases List.mem_append.1 h with h | h
  · exact ha h
  · exact hb h

theorem notMem_cons {c d : Char} {a : Str} (h1 : c ≠ d) (h2 : c ∉ a) :
    c ∉ d :: a := by
  intro h
  rcases List.mem_cons.1 h with h | h
  · exact h1 h
  · exact h2 h

theorem tokSplit_append (d : Char) (a b : Str) : d ∉ a →
    tokSplit d (a ++ d :: b) = (a, b) := by
  induction a with
  | nil => intro _; simp [tokSplit]
  | cons c a ih =>
    intro hd
    simp only [List.mem_cons, not_or] at hd
    have hcd : (c == d) = false := by
      rw [beq_eq_false_iff_ne]
      exact fun h => hd.1 h.symm
    simp [tokSplit, hcd, ih hd.2]

theorem tokSplit_nodelim (d : Char) (a : Str) : d ∉ a →
    tokSplit d a = (a, []) := by
  induction a with
  | nil => intro _; rfl
  | cons c a ih =>
    intro hd
    simp only [List.mem_cons, not_or] at hd
    have hcd : (c == d) = false := by
      rw [beq_eq_false_iff_ne]
      exact fun h => hd.1 h.symm
    simp [tokSplit, hcd, ih hd.2]

theorem strtok1_cons_append (d : Char) (a b : Str) (ha : a ≠ []) (hd : d ∉ a) :
    strtok1 d (a ++ d :: b) = some (a, b) := by
  match a, ha with
  | c :: a', _ =>
    simp only [List.mem_cons, not_or] at hd
    have hcd : (c == d) = false := by
      rw [beq_eq_false_iff_ne]
      exact fun h => hd.1 h.symm
    have ht : tokSplit d ((c :: a') ++ d :: b) = (c :: a', b) := by
      apply tokSplit_append
      intro h
      rcases List.mem_cons.1 h with h | h
      · exact hd.1 h
      · exact hd.2 h
    simp only [List.cons_append] at ht ⊢
    simp [strtok1, List.dropWhile_cons, hcd, ht]

theorem strtok1_nodelim (d : Char) (a : Str) (ha : a ≠ []) (hd : d ∉ a) :
    strtok1 d a = some (a, []) := by
  match a, ha with
  | c :: a', _ =>
    simp only [List.mem_cons, not_or] at hd
    have hcd : (c == d) = false := by
      rw [beq_eq_false_iff_ne]
      exact fun h => hd.1 h.symm
    have ht : tokSplit d (c :: a') = (c :: a', []) := by
      apply tokSplit_nodelim
      intro h
      rcases List.mem_cons.1 h with h | h
      · exact hd.1 h
      · exact hd.2 h
    simp [strtok1, List.dropWhile_cons, hcd, ht]

theorem splitAtFirst_append (d : Char) (a b : Str) : d ∉ a →
    splitAtFirst d (a ++ d :: b) = some (a, b) := by
  induction a with
  | nil => intro _; simp [splitAtFirst]
  | cons c a ih =>
    intro hd
    simp only [List.mem_cons, not_or] at hd
    have hcd : (c == d) = false := by
      rw [beq_eq_false_iff_ne]
      exact fun h => hd.1 h.symm
    simp [splitAtFirst, hcd, ih hd.2]

theorem splitAtFirst_nodelim (d : Char) (a : Str) : d ∉ a →
    splitAtFirst d a = none := by
  induction a with
  | nil => intro _; rfl
  | cons c a ih =>
    intro hd
    simp only [List.mem_cons, not_or] at hd
    have hcd : (c == d) = false := by
      rw [beq_eq_false_iff_ne]
      exact fun h => hd.1 h.symm
    simp [splitAtFirst, hcd, ih hd.2]

theorem trim_eq_self (s : Str) : '\r' ∉ s → '\n' ∉ s → trim_newline s = s := by
  induction s with
  | nil => intro _ _; rfl
  | cons c t ih =>
    intro h1 h2
    simp only [List.mem_cons, not_or] at h1 h2
    have hc : (c == '\r' || c == '\n') = false := by
      rw [Bool.or_eq_false_iff]
      constructor <;> rw [beq_eq_false_iff_ne]
      · exact fun h => h1.1 h.symm
      · exact fun h => h2.1 h.symm
    have hc' : (!(c == '\r' || c == '\n')) = true := by rw [hc]; rfl
    unfold trim_newline at ih ⊢
    rw [List.takeWhile_cons, if_pos hc', ih h1.2 h2.2]

/- ------------------------------------------------------------------ -/
/- Lemmas: wire-shape reduction of the tokenizer front half. -/
/- ------------------------------------------------------------------ -/

theorem parseLine_roomsW : parseLine roomsWire = Cmd.roomsQ := rfl

theorem parseLine_joinW (u r : Str) (hu : cleanTok u) (hr : cleanTok r) :
    parseLine (wire2 joinTag u r) = Cmd.join u r := by
  obtain ⟨hu0, hu1, hu2, hu3⟩ := hu
  obtain ⟨hr0, hr1, hr2, hr3⟩ := hr
  have htrim : trim_newline (wire2 joinTag u r) = wire2 joinTag u r := by
    apply trim_eq_self <;>
      exact notMem_append (by decide)
        (notMem_cons (by decide)
          (notMem_append (by assumption) (notMem_cons (by decide) (by assumption))))
  have h0 : strtok1 '|' (wire2 joinTag u r) = some (joinTag, u ++ '|' :: r) :=
    strtok1_cons_append '|' joinTag _ (by decide) (by decide)
  have h1 : strtok1 '|' (u ++ '|' :: r) = some (u, r) :=
    strtok1_cons_append '|' u _ hu0 hu1
  have h2 : strtok1 '|' r = some (r, []) := strtok1_nodelim '|' r hr0 hr1
  unfold parseLine
  rw [htrim, h0]
  dsimp only
  rw [if_pos rfl, h1]
  dsimp only
  rw [h2]

theorem parseLine_msgW (u r t : Str) (hu : cleanTok u) (hr : cleanTok r) (ht : cleanTok t) :
    parseLine (wire3 msgTag u r t) = Cmd.msg u r t := by
  obtain ⟨hu0, hu1, hu2, hu3⟩ := hu
  obtain ⟨hr0, hr1, hr2, hr3⟩ := hr
  obtain ⟨ht0, ht1, ht2, ht3⟩ := ht
  have htrim : trim_newline (wire3 msgTag u r t) = wire3 msgTag u r t := by
    apply trim_eq_self <;>
      exact notMem_append (by decide)
        (notMem_cons (by decide)
          (notMem_append (by assumption)
            (notMem_cons (by decide)
              (notMem_append (by assumption) (notMem_cons (by decide) (by assumption))))))
  have h0 : strtok1 '|' (wire3 msgTag u r t) = some (msgTag, u ++ '|' :: (r ++ '|' :: t)) :=
    strtok1_cons_append '|' msgTag _ (by decide) (by decide)
  have h1 : strtok1 '|' (u ++ '|' :: (r ++ '|' :: t)) = some (u, r ++ '|' :: t) :=
    strtok1_cons_append '|' u _ hu0 hu1
  have h2 : strtok1 '|' (r ++ '|' :: t) = some (r, t) :=
    strtok1_cons_append '|' r _ hr0 hr1
  have h3 : strtok1 '|' t = some (t, []) := strtok1_nodelim '|' t ht0 ht1
  unfold parseLine
  rw [htrim, h0]
  dsimp only
  rw [if_neg (by decide), if_pos rfl, h1]
  dsimp only
  rw [h2]
  dsimp only
  rw [h3]

theorem parseLine_pmW (a b t : Str) (ha : cleanTok a) (hb : cleanTok b) (ht : cleanTok t) :
    parseLine (wire3 pmTag a b t) = Cmd.pm a b t := by
  obtain ⟨ha0, ha1, ha2, ha3⟩ := ha
  obtain ⟨hb0, hb1, hb2, hb3⟩ := hb
  obtain ⟨ht0, ht1, ht2, ht3⟩ := ht
  have htrim : trim_newline (wire3 pmTag a b t) = wire3 pmTag a b t := by
    apply trim_eq_self <;>
      exact notMem_append (by decide)
        (notMem_cons (by decide)
          (notMem_append (by assumption)
            (notMem_cons (by decide)
              (notMem_append (by assumption) (notMem_cons (by decide) (by assumption))))))
  have h0 : strtok1 '|' (wire3 pmTag a b t) = some (pmTag, a ++ '|' :: (b ++ '|' :: t)) :=
    strtok1_cons_append '|' pmTag _ (by decide) (by decide)
  have h1 : strtok1 '|' (a ++ '|' :: (b ++ '|' :: t)) = some (a, b ++ '|' :: t) :=
    strtok1_cons_append '|' a _ ha0 ha1
  have h2 : strtok1 '|' (b ++ '|' :: t) = some (b, t) :=
    strtok1_cons_append '|' b _ hb0 hb1
  have h3 : strtok1 '|' t = some (t, []) := strtok1_nodelim '|' t ht0 ht1
  unfold parseLine
  rw [htrim, h0]
  dsimp only
  rw [if_neg (by decide), if_neg (by decide), if_pos rfl, h1]
  dsimp only
  rw [h2]
  dsimp only
  rw [h3]

theorem parseLine_appealW (a t : Str) (ha : cleanTok a) (ht : cleanTxt t) :
    parseLine (wire2 appealTag a t) = Cmd.appeal a t := by
  obtain ⟨ha0, ha1, ha2, ha3⟩ := ha
  obtain ⟨ht0, ht2, ht3⟩ := ht
  have htrim : trim_newline (wire2 appealTag a t) = wire2 appealTag a t := by
    apply trim_eq_self <;>
      exact notMem_append (by decide)
        (notMem_cons (by decide)
          (notMem_append (by assumption) (notMem_cons (by decide) (by assumption))))
  have h0 : strtok1 '|' (wire2 appealTag a t) = some (appealTag, a ++ '|' :: t) :=
    strtok1_cons_append '|' appealTag _ (by decide) (by decide)
  have h1 : strtok1 '|' (a ++ '|' :: t) = some (a, t) :=
    strtok1_cons_append '|' a _ ha0 ha1
  have h2 : strtok1 '\n' t = some (t, []) := strtok1_nodelim '\n' t ht0 ht3
  unfold parseLine
  rw [htrim, h0]
  dsimp only
  rw [if_neg (by decide), if_neg (by decide), if_neg (by decide), if_pos rfl, h1]
  dsimp only
  rw [h2]

theorem parseLine_historyW (r : Str) (hr : cleanTok r) :
    parseLine (wire1 historyTag r) = Cmd.history r := by
  obtain ⟨hr0, hr1, hr2, hr3⟩ := hr
  have htrim : trim_newline (wire1 historyTag r) = wire1 historyTag r := by
    apply trim_eq_self <;>
      exact notMem_append (by decide) (notMem_cons (by decide) (by assumption))
  have h0 : strtok1 '|' (wire1 historyTag r) = some (historyTag, r) :=
    strtok1_cons_append '|' historyTag _ (by decide) (by decide)
  have h1 : strtok1 '|' r = some (r, []) := strtok1_nodelim '|' r hr0 hr1
  unfold parseLine
  rw [htrim, h0]
  dsimp only
  rw [if_neg (by decide), if_neg (by decide), if_neg (by decide), if_neg (by decide),
      if_pos rfl, h1]

theorem parseLine_adminW (r : Str) (h2 : '\r' ∉ r) (h3 : '\n' ∉ r) :
    parseLine (wire1 adminTag r) = Cmd.adminC r := by
  have htrim : trim_newline (wire1 adminTag r) = wire1 adminTag r := by
    apply trim_eq_self <;>
      exact notMem_append (by decide) (notMem_cons (by decide) (by assumption))
  have h0 : strtok1 '|' (wire1 adminTag r) = some (adminTag, r) :=
    strtok1_cons_append '|' adminTag _ (by decide) (by decide)
  unfold parseLine
  rw [htrim, h0]
  dsimp only
  rw [if_neg (by decide), if_neg (by decide), if_neg (by decide), if_neg (by decide),
      if_neg (by decide), if_neg (by decide), if_neg (by decide), if_pos rfl]

/- ------------------------------------------------------------------ -/
/- Lemmas: the ADMIN payload parse on the two wire shapes. -/
/- ------------------------------------------------------------------ -/

theorem admin_split_piped (n pw act args : Str)
    (hn0 : n ≠ []) (hn1 : '|' ∉ n)
    (hpw0 : pw ≠ []) (hpw1 : '|' ∉ pw)
    (hact0 : act ≠ []) (hact1 : '|' ∉ act) (hact2 : ' ' ∉ act) :
    admin_split (payloadPiped n pw act args) = some (n, pw, some act, none, args) := by
  have h0 : strtok1 '|' (payloadPiped n pw act args) =
      some (n, pw ++ '|' :: (act ++ '|' :: args)) :=
    strtok1_cons_append '|' n _ hn0 hn1
  have h1 : strtok1 '|' (pw ++ '|' :: (act ++ '|' :: args)) =
      some (pw, act ++ '|' :: args) :=
    strtok1_cons_append '|' pw _ hpw0 hpw1
  have h2 : strtok1 '|' (act ++ '|' :: args) = some (act, args) :=
    strtok1_cons_append '|' act _ hact0 hact1
  have h3 : splitAtFirst ' ' act = none := splitAtFirst_nodelim ' ' act hact2
  unfold admin_split
  rw [h0]
  dsimp only
  rw [h1]
  dsimp only
  rw [h2]
  dsimp only
  rw [h3]

theorem admin_split_hybrid (n pw act args : Str)
    (hn0 : n ≠ []) (hn1 : '|' ∉ n)
    (hpw0 : pw ≠ []) (hpw1 : '|' ∉ pw) (hpw2 : ' ' ∉ pw)
    (hact1 : '|' ∉ act) (hact2 : ' ' ∉ act)
    (hargs1 : '|' ∉ args) :
    admin_split (payloadHybrid n pw act args) = some (n, pw, some act, some args, []) := by
  have h0 : strtok1 '|' (payloadHybrid n pw act args) =
      some (n, pw ++ ' ' :: (act ++ ' ' :: args)) :=
    strtok1_cons_append '|' n _ hn0 hn1
  have hthird : '|' ∉ pw ++ ' ' :: (act ++ ' ' :: args) :=
    notMem_append hpw1 (notMem_cons (by decide) (notMem_append hact1 (notMem_cons (by decide) hargs1)))
  have hthird0 : pw ++ ' ' :: (act ++ ' ' :: args) ≠ [] := by
    cases pw <;> simp
  have h1 : strtok1 '|' (pw ++ ' ' :: (act ++ ' ' :: args)) =
      some (pw ++ ' ' :: (act ++ ' ' :: args), []) :=
    strtok1_nodelim '|' _ hthird0 hthird
  have h2 : splitAtFirst ' ' (pw ++ ' ' :: (act ++ ' ' :: args)) =
      some (pw, act ++ ' ' :: args) :=
    splitAtFirst_append ' ' pw _ hpw2
  have h3 : splitAtFirst ' ' (act ++ ' ' :: args) = some (act, args) :=
    splitAtFirst_append ' ' act _ hact2
  unfold admin_split
  rw [h0]
  dsimp only
  rw [h1]
  dsimp only
  rw [show strtok1 '|' ([] : Str) = none from rfl]
  dsimp only
  rw [h2]
  dsimp only
  rw [h3]

theorem admin_args_piped (args : Str) (h0 : args ≠ []) (h1 : '|' ∉ args) :
    admin_args none args = some args := by
  unfold admin_args
  rw [strtok1_nodelim '|' args h0 h1]
  rfl

theorem admin_args_direct (args : Str) (rem : Str) :
    admin_args (some args) rem = some args := rfl

/- ------------------------------------------------------------------ -/
/- Lemmas: the admin dispatch. -/
/- ------------------------------------------------------------------ -/

theorem adminDispatch_wrongpw (s : Str → Str) (st : ServerState) (i : Nat)
    (pw : Str) (aw : Option Str) (args : Option Str) (h : pw ≠ adminPassword) :
    adminDispatch s st i pw aw args = (st, [(i, authFailedMsg)]) := by
  unfold adminDispatch
  rw [if_pos h]

theorem adminDispatch_noaction (s : Str → Str) (st : ServerState) (i : Nat)
    (args : Option Str) :
    adminDispatch s st i adminPassword none args = (adminGrant st i, [(i, noActionMsg)]) := by
  unfold adminDispatch
  rw [if_neg (fun h => h rfl)]

theorem adminDispatch_mute (s : Str → Str) (st : ServerState) (i : Nat)
    (target : Str) (idx : Nat)
    (h : find_client_by_name (adminGrant st i).clients target = some idx) :
    adminDispatch s st i adminPassword (some muteTag) (some target) =
      ({ adminGrant st i with
          clients := setClient (adminGrant st i).clients idx (fun c => { c with muted := true }) },
       [(idx, mutedByAdminMsg)]) := by
  unfold adminDispatch
  rw [if_neg (fun h => h rfl)]
  dsimp only
  rw [if_neg (by decide), if_pos rfl]
  rw [h]

theorem adminDispatch_unmute (s : Str → Str) (st : ServerState) (i : Nat)
    (target : Str) (idx : Nat)
    (h : find_client_by_name (adminGrant st i).clients target = some idx) :
    adminDispatch s st i adminPassword (some unmuteTag) (some target) =
      ({ adminGrant st i with
          clients := setClient (adminGrant st i).clients idx (fun c => { c with muted := false }) },
       [(idx, unmutedByAdminMsg)]) := by
  unfold adminDispatch
  rw [if_neg (fun h => h rfl)]
  dsimp only
  rw [if_neg (by decide), if_neg (by decide), if_pos rfl]
  rw [h]

theorem adminDispatch_bcast (s : Str → Str) (st : ServerState) (i : Nat) (text : Str) :
    adminDispatch s st i adminPassword (some bcastTag) (some text) =
      broadcast_to_room s (adminGrant st i) globalRoom adminSender text := by
  unfold adminDispatch
  rw [if_neg (fun h => h rfl)]
  dsimp only
  rw [if_neg (by decide), if_neg (by decide), if_neg (by decide), if_pos rfl]
  rfl

/- ------------------------------------------------------------------ -/
/- Lemmas: the slot array. -/
/- ------------------------------------------------------------------ -/

theorem length_setClient (cs : List ClientSt) (i : Nat) (f : ClientSt → ClientSt) :
    (setClient cs i f).length = cs.length := by
  induction cs generalizing i with
  | nil => rfl
  | cons c cs ih =>
    cases i with
    | zero => rfl
    | succ n => simp [setClient, ih]

theorem getElem?_setClient_self (cs : List ClientSt) (i : Nat) (f : ClientSt → ClientSt)
    (c : ClientSt) (h : cs[i]? = some c) : (setClient cs i f)[i]? = some (f c) := by
  induction cs generalizing i with
  | nil => simp at h
  | cons d cs ih =>
    cases i with
    | zero =>
      simp at h
      subst h
      simp [setClient]
    | succ n =>
      simp only [List.getElem?_cons_succ] at h
      simpa [setClient] using ih n h

theorem getElem?_setClient_ne (cs : List ClientSt) (i j : Nat) (f : ClientSt → ClientSt)
    (h : i ≠ j) : (setClient cs i f)[j]? = cs[j]? := by
  induction cs generalizing i j with
  | nil => rfl
  | cons d cs ih =>
    cases i with
    | zero =>
      cases j with
      | zero => exact absurd rfl h
      | succ m => simp [setClient]
    | succ n =>
      cases j with
      | zero => simp [setClient]
      | succ m =>
        simp only [setClient, List.getElem?_cons_succ]
        exact ih n m (fun hh => h (by rw [hh]))

theorem findIdxFrom_setClient (p : ClientSt → Bool) (f : ClientSt → ClientSt)
    (hp : ∀ c, p (f c) = p c) (cs : List ClientSt) :
    ∀ k n, findIdxFrom p (setClient cs k f) n = findIdxFrom p cs n := by
  induction cs with
  | nil => intro k n; rfl
  | cons c cs ih =>
    intro k n
    cases k with
    | zero => simp [setClient, findIdxFrom, hp c]
    | succ m => simp [setClient, findIdxFrom, ih m]

theorem findIdxFrom_spec (p : ClientSt → Bool) (cs : List ClientSt) :
    ∀ n m, findIdxFrom p cs n = some m →
      ∃ j, m = n + j ∧ ∃ c, cs[j]? = some c ∧ p c = true ∧
        ∀ k, k < j → ∀ c', cs[k]? = some c' → p c' = false := by
  induction cs with
  | nil => intro n m h; simp [findIdxFrom] at h
  | cons c cs ih =>
    intro n m h
    unfold findIdxFrom at h
    by_cases hc : p c
    · rw [if_pos hc] at h
      injection h with h
      subst h
      exact ⟨0, rfl, c, by simp, hc, fun k hk => absurd hk (Nat.not_lt_zero k)⟩
    · rw [if_neg hc] at h
      obtain ⟨j, hm, d, hd, hpd, hmin⟩ := ih (n + 1) m h
      refine ⟨j + 1, by omega, d, by simpa using hd, hpd, ?_⟩
      intro k hk c' hc'
      cases k with
      | zero =>
        simp at hc'
        subst hc'
        simpa using hc
      | succ k' =>
        simp only [List.getElem?_cons_succ] at hc'
        exact hmin k' (by omega) c' hc'

theorem findIdxFrom_none (p : ClientSt → Bool) (cs : List ClientSt) :
    ∀ n, findIdxFrom p cs n = none ↔ ∀ c ∈ cs, p c = false := by
  induction cs with
  | nil => intro n; simp [findIdxFrom]
  | cons c cs ih =>
    intro n
    unfold findIdxFrom
    by_cases hc : p c
    · rw [if_pos hc]
      simp [hc]
    · rw [if_neg hc]
      simp only [List.mem_cons]
      constructor
      · intro h d hd
        rcases hd with hd | hd
        · subst hd; simpa using hc
        · exact (ih (n + 1)).1 h d hd
      · intro h
        exact (ih (n + 1)).2 (fun d hd => h d (Or.inr hd))

theorem find_client_by_name_spec (cs : List ClientSt) (u : Str) (j : Nat)
    (h : find_client_by_name cs u = some j) :
    ∃ c, cs[j]? = some c ∧ c.connected = true ∧ c.username = u ∧
      ∀ k, k < j → ∀ c', cs[k]? = some c' → ¬(c'.connected = true ∧ c'.username = u) := by
  obtain ⟨j', hj, c, hc, hpc, hmin⟩ := findIdxFrom_spec _ cs 0 j h
  simp only [Nat.zero_add] at hj
  subst hj
  rw [Bool.and_eq_true, beq_iff_eq] at hpc
  refine ⟨c, hc, hpc.1, hpc.2, ?_⟩
  intro k hk c' hc' hcontra
  have hfalse := hmin k hk c' hc'
  rw [hcontra.1, hcontra.2] at hfalse
  simp at hfalse

theorem find_client_by_name_setClient (cs : List ClientSt) (k : Nat)
    (f : ClientSt → ClientSt) (u : Str)
    (hf : ∀ c, (f c).connected = c.connected ∧ (f c).username = c.username) :
    find_client_by_name (setClient cs k f) u = find_client_by_name cs u := by
  unfold find_client_by_name
  apply findIdxFrom_setClient
  intro c
  rw [(hf c).1, (hf c).2]

theorem find_client_by_name_lt (cs : List ClientSt) (u : Str) (j : Nat)
    (h : find_client_by_name cs u = some j) : j < cs.length := by
  obtain ⟨c, hc, _⟩ := find_client_by_name_spec cs u j h
  exact List.getElem?_eq_some.1 hc |>.1

/- ------------------------------------------------------------------ -/
/- Lemmas: the delivery loops. -/
/- ------------------------------------------------------------------ -/

theorem deliverIf_mem (p : ClientSt → Bool) (line : Str) (cs : List ClientSt) :
    ∀ n k l, ((k, l) ∈ deliverIf p line cs n ↔
      ∃ j c, k = n + j ∧ cs[j]? = some c ∧ p c = true ∧ l = line) := by
  induction cs with
  | nil => intro n k l; simp [deliverIf]
  | cons c cs ih =>
    intro n k l
    unfold deliverIf
    by_cases hc : p c
    · rw [if_pos hc]
      simp only [List.mem_append, List.mem_singleton, Prod.mk.injEq, ih (n + 1)]
      constructor
      · rintro (⟨hk, hl⟩ | ⟨j, d, hk, hd, hpd, hl⟩)
        · exact ⟨0, c, by omega, by simp, hc, hl⟩
        · exact ⟨j + 1, d, by omega, by simpa using hd, hpd, hl⟩
      · rintro ⟨j, d, hk, hd, hpd, hl⟩
        cases j with
        | zero =>
          simp at hd
          subst hd
          exact Or.inl ⟨by omega, hl⟩
        | succ j' =>
          simp only [List.getElem?_cons_succ] at hd
          exact Or.inr ⟨j', d, by omega, hd, hpd, hl⟩
    · rw [if_neg hc]
      simp only [List.nil_append, ih (n + 1)]
      constructor
      · rintro ⟨j, d, hk, hd, hpd, hl⟩
        exact ⟨j + 1, d, by omega, by simpa using hd, hpd, hl⟩
      · rintro ⟨j, d, hk, hd, hpd, hl⟩
        cases j with
        | zero =>
          simp at hd
          subst hd
          rw [hpd] at hc
          exact absurd rfl hc
        | succ j' =>
          simp only [List.getElem?_cons_succ] at hd
          exact ⟨j', d, by omega, hd, hpd, hl⟩

theorem length_deliverIf (p : ClientSt → Bool) (line : Str) (cs : List ClientSt) :
    ∀ n, (deliverIf p line cs n).length = countIf p cs := by
  induction cs with
  | nil => intro n; rfl
  | cons c cs ih =>
    intro n
    unfold deliverIf countIf
    by_cases hc : p c
    · rw [if_pos hc, if_pos hc]
      simp only [List.singleton_append, List.length_cons, ih (n + 1)]
      omega
    · rw [if_neg hc, if_neg hc]
      simpa using ih (n + 1)

/- ------------------------------------------------------------------ -/
/- Lemmas: rooms and logs. -/
/- ------------------------------------------------------------------ -/

theorem mem_add_room (rooms : List Str) (r x : Str) (h : x ∈ rooms) :
    x ∈ add_room_if_missing rooms r := by
  unfold add_room_if_missing
  by_cases h1 : r = []
  · rw [if_pos h1]; exact h
  · rw [if_neg h1]
    by_cases h2 : r ∈ rooms
    · rw [if_pos h2]; exact h
    · rw [if_neg h2]
      by_cases h3 : rooms.length < MAX_ROOMS
      · rw [if_pos h3]; exact List.mem_append_left _ h
      · rw [if_neg h3]; exact h

theorem add_room_full (rooms : List Str) (r : Str)
    (h : ¬rooms.length < MAX_ROOMS) : add_room_if_missing rooms r = rooms := by
  unfold add_room_if_missing
  by_cases h1 : r = []
  · rw [if_pos h1]
  · rw [if_neg h1]
    by_cases h2 : r ∈ rooms
    · rw [if_pos h2]
    · rw [if_neg h2, if_neg h]

theorem logLookup_append_some (logs : List (Str × Str)) (room m c : Str)
    (h : logLookup logs room = some c) :
    logLookup (append_room_log logs room m) room = some (c ++ (m ++ nl)) := by
  induction logs with
  | nil => simp [logLookup] at h
  | cons e rest ih =>
    obtain ⟨r0, c0⟩ := e
    unfold logLookup at h
    unfold append_room_log logAppendFile
    by_cases hr : r0 = room
    · rw [if_pos hr] at h
      injection h with h
      subst h
      rw [if_pos hr]
      simp [logLookup, hr]
    · rw [if_neg hr] at h
      rw [if_neg hr]
      simpa [logLookup, hr] using ih h

theorem logLookup_append_none (logs : List (Str × Str)) (room m : Str)
    (h : logLookup logs room = none) :
    logLookup (append_room_log logs room m) room = some (m ++ nl) := by
  induction logs with
  | nil => simp [append_room_log, logAppendFile, logLookup]
  | cons e rest ih =>
    obtain ⟨r0, c0⟩ := e
    unfold logLookup at h
    unfold append_room_log logAppendFile
    by_cases hr : r0 = room
    · rw [if_pos hr] at h
      exact absurd h (by simp)
    · rw [if_neg hr] at h
      rw [if_neg hr]
      simpa [logLookup, hr] using ih h

theorem logLookup_foldl (room : Str) (msgs : List Str) :
    ∀ (logs : List (Str × Str)) (c : Str), logLookup logs room = some c →
      logLookup (List.foldl (fun ls m => append_room_log ls room m) logs msgs) room =
        some (c ++ concatLines msgs) := by
  induction msgs with
  | nil => intro logs c h; simpa [concatLines] using h
  | cons m rest ih =>
    intro logs c h
    simp only [List.foldl_cons]
    have h1 := logLookup_append_some logs room m c h
    have h2 := ih (append_room_log logs room m) (c ++ (m ++ nl)) h1
    rw [h2, concatLines]
    simp

theorem logLookup_foldl_fresh (room : Str) (msgs : List Str) (logs : List (Str × Str))
    (hmsgs : msgs ≠ []) (h : logLookup logs room = none) :
    logLookup (List.foldl (fun ls m => append_room_log ls room m) logs msgs) room =
      some (concatLines msgs) := by
  match msgs, hmsgs with
  | m :: rest, _ =>
    simp only [List.foldl_cons]
    have h1 := logLookup_append_none logs room m h
    have h2 := logLookup_foldl room rest (append_room_log logs room m) (m ++ nl) h1
    rw [h2, concatLines]

/- ------------------------------------------------------------------ -/
/- The claims. -/
/- ------------------------------------------------------------------ -/

/-- C5: when every capacity slot of the registry is occupied, accepting a
further connection replies "Server full", closes it without allocating a
slot (the state is unchanged), and the connected count is unchanged;
otherwise allocation returns the first free slot. -/
theorem registry_capacity (st : ServerState) :
    ((∀ c ∈ st.clients, c.connected = true) →
      accept_and_spawn st = (st, AcceptResult.rejected serverFullMsg) ∧
      countConnected (accept_and_spawn st).1.clients = countConnected st.clients) ∧
    (∀ j, find_free_slot st.clients = some j →
      ∃ c, st.clients[j]? = some c ∧ c.connected = false ∧
        ∀ k, k < j → ∀ c', st.clients[k]? = some c' → c'.connected = true) := by
  constructor
  · intro hfull
    have hnone : find_free_slot st.clients = none := by
      unfold find_free_slot
      rw [findIdxFrom_none]
      intro c hc
      simp [hfull c hc]
    constructor
    · unfold accept_and_spawn
      rw [hnone]
    · unfold accept_and_spawn
      rw [hnone]
  · intro j hj
    obtain ⟨j', hj0, c, hc, hpc, hmin⟩ := findIdxFrom_spec _ st.clients 0 j hj
    simp only [Nat.zero_add] at hj0
    subst hj0
    refine ⟨c, hc, by simpa using hpc, ?_⟩
    intro k hk c' hc'
    have hk' := hmin k hk c' hc'
    simpa using hk'

theorem registry_capacity_wit :
    (accept_and_spawn demoFullSt = (demoFullSt, AcceptResult.rejected serverFullMsg) ∧
      countConnected (accept_and_spawn demoFullSt).1.clients =
        countConnected demoFullSt.clients) ∧
    (∃ c, demoFreeSt.clients[1]? = some c ∧ c.connected = false ∧
      ∀ k, k < 1 → ∀ c', demoFreeSt.clients[k]? = some c' → c'.connected = true) := by
  constructor
  · exact (registry_capacity demoFullSt).1 (by decide)
  · exact (registry_capacity demoFreeSt).2 1 (by decide)

/-- C7: after appending messages M1..Mk to room R's initially absent log, a
HISTORY(R) request streams back exactly those lines in append order,
byte-identical (each message followed by the newline byte that was written);
when no log exists for R the requester is told so rather than given an
error. -/
theorem history_roundtrip (s : Str → Str) (st st0 : ServerState) (i : Nat) (room : Str)
    (msgs : List Str) (logs0 : List (Str × Str))
    (hroom : cleanTok room) (hmsgs : msgs ≠ [])
    (hbase : logLookup logs0 room = none)
    (hst : st.logs = List.foldl (fun ls m => append_room_log ls room m) logs0 msgs)
    (habsent : logLookup st0.logs room = none) :
    handle_parent_message s st i (wire1 historyTag room) = (st, [(i, concatLines msgs)]) ∧
    handle_parent_message s st0 i (wire1 historyTag room) = (st0, [(i, noHistoryMsg room)]) := by
  have hp := parseLine_historyW room hroom
  constructor
  · unfold handle_parent_message
    rw [hp]
    show historyStep st i room = _
    unfold historyStep
    rw [hst, logLookup_foldl_fresh room msgs logs0 hmsgs hbase]
  · unfold handle_parent_message
    rw [hp]
    show historyStep st0 i room = _
    unfold historyStep
    rw [habsent]

theorem history_roundtrip_wit :
    handle_parent_message (fun t => t) demoLogSt 1 (wire1 historyTag ("dev".toList)) =
      (demoLogSt, [(1, concatLines ["[dev] u: hi".toList])]) ∧
    handle_parent_message (fun t => t) demoSt 1 (wire1 historyTag ("dev".toList)) =
      (demoSt, [(1, noHistoryMsg ("dev".toList))]) :=
  history_roundtrip (fun t => t) demoLogSt demoSt 1 ("dev".toList) ["[dev] u: hi".toList] []
    (by decide) (by decide) (by decide) (by decide) (by decide)

/-- C8: a PM is delivered to the first connected session whose display name
exactly equals the target (and to no one else), with a "PM sent" reply to
the sender; when no connected session has the name, the sender gets a
user-not-found reply and no session receives the message. -/
theorem pm_delivery (s : Str → Str) (st : ServerState) (i : Nat) (sender toName text : Str)
    (hs : cleanTok sender) (hto : cleanTok toName) (ht : cleanTok text) :
    (∀ j, find_client_by_name st.clients toName = some j →
      handle_parent_message s st i (wire3 pmTag sender toName text) =
        (st, [(j, pmLine sender (s text)), (i, pmSentMsg toName)]) ∧
      ∃ c, st.clients[j]? = some c ∧ c.connected = true ∧ c.username = toName ∧
        ∀ k, k < j → ∀ c', st.clients[k]? = some c' →
          ¬(c'.connected = true ∧ c'.username = toName)) ∧
    (find_client_by_name st.clients toName = none →
      handle_parent_message s st i (wire3 pmTag sender toName text) =
        (st, [(i, pmNotFoundMsg toName)])) := by
  have hp := parseLine_pmW sender toName text hs hto ht
  constructor
  · intro j hj
    constructor
    · unfold handle_parent_message
      rw [hp]
      show pmStep s st i sender toName text = _
      unfold pmStep send_private
      rw [hj]
      rfl
    · exact find_client_by_name_spec st.clients toName j hj
  · intro hnone
    unfold handle_parent_message
    rw [hp]
    show pmStep s st i sender toName text = _
    unfold pmStep send_private
    rw [hnone]
    rfl

theorem pm_delivery_wit :
    (handle_parent_message (fun t => t) demoSt 0
        (wire3 pmTag ("a".toList) ("u".toList) ("hi".toList)) =
      (demoSt, [(1, pmLine ("a".toList) ("hi".toList)), (0, pmSentMsg ("u".toList))]) ∧
     ∃ c, demoSt.clients[1]? = some c ∧ c.connected = true ∧ c.username = "u".toList ∧
       ∀ k, k < 1 → ∀ c', demoSt.clients[k]? = some c' →
         ¬(c'.connected = true ∧ c'.username = "u".toList)) ∧
    handle_parent_message (fun t => t) demoSt 0
        (wire3 pmTag ("a".toList) ("x".toList) ("hi".toList)) =
      (demoSt, [(0, pmNotFoundMsg ("x".toList))]) := by
  constructor
  · exact (pm_delivery (fun t => t) demoSt 0 ("a".toList) ("u".toList) ("hi".toList)
      (by decide) (by decide) (by decide)).1 1 (by decide)
  · exact (pm_delivery (fun t => t) demoSt 0 ("a".toList) ("x".toList) ("hi".toList)
      (by decide) (by decide) (by decide)).2 (by decide)

/-- C1: an ADMIN command whose parsed password differs from the shared
secret leaves the state exactly unchanged (in particular `is_admin` is
never set) and its only effect is the "Admin auth failed" reply; when the
password equals the secret, the requesting session's `is_admin` flag is set
even when no action word follows. -/
theorem admin_auth_gate (s : Str → Str) (st : ServerState) (i : Nat) (rest : Str)
    (n pw : Str) (aw aa : Option Str) (rem : Str)
    (hcr : '\r' ∉ rest) (hlf : '\n' ∉ rest)
    (hsplit : admin_split rest = some (n, pw, aw, aa, rem)) :
    (pw ≠ adminPassword →
      handle_parent_message s st i (wire1 adminTag rest) = (st, [(i, authFailedMsg)])) ∧
    (pw = adminPassword → aw = none →
      handle_parent_message s st i (wire1 adminTag rest) =
        (adminGrant st i, [(i, noActionMsg)]) ∧
      (i < st.clients.length → (getClient (adminGrant st i) i).is_admin = true)) := by
  have hp := parseLine_adminW rest hcr hlf
  constructor
  · intro hpw
    unfold handle_parent_message
    rw [hp]
    show adminStep s st i rest = _
    unfold adminStep
    rw [hsplit]
    exact adminDispatch_wrongpw s st i pw aw (admin_args aa rem) hpw
  · intro hpw haw
    subst hpw
    subst haw
    constructor
    · unfold handle_parent_message
      rw [hp]
      show adminStep s st i rest = _
      unfold adminStep
      rw [hsplit]
      exact adminDispatch_noaction s st i (admin_args aa rem)
    · intro hi
      have hc : st.clients[i]? = some st.clients[i] := List.getElem?_eq_getElem hi
      unfold getClient adminGrant
      simp only
      rw [getElem?_setClient_self st.clients i _ _ hc]
      rfl

theorem admin_auth_gate_wit :
    handle_parent_message (fun t => t) demoSt 1 (wire1 adminTag ("n|wrong|KICK|bob".toList)) =
      (demoSt, [(1, authFailedMsg)]) ∧
    (handle_parent_message (fun t => t) demoSt 1 (wire1 adminTag ("n|admin123".toList)) =
       (adminGrant demoSt 1, [(1, noActionMsg)]) ∧
     (1 < demoSt.clients.length → (getClient (adminGrant demoSt 1) 1).is_admin = true)) := by
  constructor
  · exact (admin_auth_gate (fun t => t) demoSt 1 ("n|wrong|KICK|bob".toList)
      ("n".toList) ("wrong".toList) (some ("KICK".toList)) none ("bob".toList)
      (by decide) (by decide) (by decide)).1 (by decide)
  · exact (admin_auth_gate (fun t => t) demoSt 1 ("n|admin123".toList)
      ("n".toList) ("admin123".toList) none none []
      (by decide) (by decide) (by decide)).2 rfl rfl

/-- C4: broadcasting to the room "global" (as the admin BROADCAST action
does after successful authentication) delivers the "[global] admin: text"
line to every connected session regardless of its room, whereas
broadcasting to any other room delivers only to connected sessions whose
current room equals it; and an authenticated piped ADMIN BROADCAST wire is
exactly a broadcast to "global" from "admin". -/
theorem global_broadcast_fanout (s : Str → Str) (st : ServerState)
    (room sender msg : Str) (k : Nat) (l : Str) (i : Nat) (n text : Str)
    (hroom : room ≠ globalRoom) (hn : cleanTok n) (htext : cleanTok text) :
    ((k, l) ∈ (broadcast_to_room s st globalRoom adminSender msg).2 ↔
      (∃ c, st.clients[k]? = some c ∧ c.connected = true) ∧
        l = bcastLine globalRoom adminSender (s msg) ++ nl) ∧
    ((k, l) ∈ (broadcast_to_room s st room sender msg).2 ↔
      ∃ c, st.clients[k]? = some c ∧ c.connected = true ∧ c.room = room ∧
        l = bcastLine room sender (s msg) ++ nl) ∧
    (handle_parent_message s st i
        (wire1 adminTag (payloadPiped n adminPassword bcastTag text)) =
      broadcast_to_room s (adminGrant st i) globalRoom adminSender text) := by
  refine ⟨?_, ?_, ?_⟩
  · unfold broadcast_to_room
    simp only
    rw [if_pos trivial, deliverIf_mem]
    constructor
    · rintro ⟨j, c, hk, hc, hpc, hl⟩
      have hjk : j = k := by omega
      subst hjk
      exact ⟨⟨c, hc, hpc⟩, hl⟩
    · rintro ⟨⟨c, hc, hcon⟩, hl⟩
      exact ⟨k, c, by omega, hc, hcon, hl⟩
  · unfold broadcast_to_room
    simp only
    rw [if_neg hroom, deliverIf_mem]
    constructor
    · rintro ⟨j, c, hk, hc, hpc, hl⟩
      have hjk : j = k := by omega
      subst hjk
      rw [Bool.and_eq_true, beq_iff_eq] at hpc
      exact ⟨c, hc, hpc.1, hpc.2, hl⟩
    · rintro ⟨c, hc, hcon, hrm, hl⟩
      refine ⟨k, c, by omega, hc, ?_, hl⟩
      rw [Bool.and_eq_true, beq_iff_eq]
      exact ⟨hcon, hrm⟩
  · have hcr : '\r' ∉ payloadPiped n adminPassword bcastTag text :=
      notMem_append hn.2.2.1
        (notMem_cons (by decide)
          (notMem_append (by decide)
            (notMem_cons (by decide)
              (notMem_append (by decide) (notMem_cons (by decide) htext.2.2.1)))))
    have hlf : '\n' ∉ payloadPiped n adminPassword bcastTag text :=
      notMem_append hn.2.2.2
        (notMem_cons (by decide)
          (notMem_append (by decide)
            (notMem_cons (by decide)
              (notMem_append (by decide) (notMem_cons (by decide) htext.2.2.2)))))
    have hp := parseLine_adminW (payloadPiped n adminPassword bcastTag text) hcr hlf
    unfold handle_parent_message
    rw [hp]
    show adminStep s st i (payloadPiped n adminPassword bcastTag text) = _
    unfold adminStep
    rw [admin_split_piped n adminPassword bcastTag text hn.1 hn.2.1
      (by decide) (by decide) (by decide) (by decide) (by decide)]
    dsimp only
    rw [admin_args_piped text htext.1 htext.2.1]
    exact adminDispatch_bcast s st i text

theorem global_broadcast_fanout_wit :
    ((1, bcastLine globalRoom adminSender ("hi".toList) ++ nl) ∈
        (broadcast_to_room (fun t => t) demoSt globalRoom adminSender ("hi".toList)).2 ↔
      (∃ c, demoSt.clients[1]? = some c ∧ c.connected = true) ∧
        bcastLine globalRoom adminSender ("hi".toList) ++ nl =
          bcastLine globalRoom adminSender ("hi".toList) ++ nl) ∧
    ((1, bcastLine globalRoom adminSender ("hi".toList) ++ nl) ∈
        (broadcast_to_room (fun t => t) demoSt ("dev".toList) ("a".toList) ("hi".toList)).2 ↔
      ∃ c, demoSt.clients[1]? = some c ∧ c.connected = true ∧ c.room = "dev".toList ∧
        bcastLine globalRoom adminSender ("hi".toList) ++ nl =
          bcastLine ("dev".toList) ("a".toList) ("hi".toList) ++ nl) ∧
    (handle_parent_message (fun t => t) demoSt 0
        (wire1 adminTag (payloadPiped ("n".toList) adminPassword bcastTag ("hey".toList))) =
      broadcast_to_room (fun t => t) (adminGrant demoSt 0) globalRoom adminSender
        ("hey".toList)) :=
  global_broadcast_fanout (fun t => t) demoSt ("dev".toList) ("a".toList) ("hi".toList)
    1 (bcastLine globalRoom adminSender ("hi".toList) ++ nl) 0 ("n".toList) ("hey".toList)
    (by decide) (by decide) (by decide)

/-- C3: after an admin MUTE of a session's user, a MSG from that session
produces no broadcast and no log append (the state is unchanged) and the
sender alone receives "You are muted."; after a subsequent UNMUTE of the
same user, a MSG from that session is again sanitized, appended to the room
log, and delivered to all sessions in the room. -/
theorem mute_unmute_flow (s : Str → Str) (st : ServerState) (a i : Nat)
    (an u r text : Str)
    (han : cleanTok an) (hu : cleanTok u) (hr : cleanTok r) (htext : cleanTok text)
    (hfind : find_client_by_name st.clients u = some i) :
    handle_parent_message s st a (wire1 adminTag (payloadPiped an adminPassword muteTag u)) =
      (muteState st a i, [(i, mutedByAdminMsg)]) ∧
    handle_parent_message s (muteState st a i) i (wire3 msgTag u r text) =
      (muteState st a i, [(i, mutedReplyMsg)]) ∧
    handle_parent_message s (muteState st a i) a
        (wire1 adminTag (payloadPiped an adminPassword unmuteTag u)) =
      (unmuteState st a i, [(i, unmutedByAdminMsg)]) ∧
    handle_parent_message s (unmuteState st a i) i (wire3 msgTag u r text) =
      broadcast_to_room s (unmuteState st a i) r u text ∧
    (broadcast_to_room s (unmuteState st a i) r u text).1.logs =
      append_room_log (unmuteState st a i).logs r (bcastLine r u (s text)) ∧
    (∀ k c, (unmuteState st a i).clients[k]? = some c → c.connected = true → c.room = r →
      (k, bcastLine r u (s text) ++ nl) ∈
        (broadcast_to_room s (unmuteState st a i) r u text).2) := by
  have hlen : i < st.clients.length := find_client_by_name_lt st.clients u i hfind
  have hcrM : '\r' ∉ payloadPiped an adminPassword muteTag u :=
    notMem_append han.2.2.1
      (notMem_cons (by decide)
        (notMem_append (by decide)
          (notMem_cons (by decide)
            (notMem_append (by decide) (notMem_cons (by decide) hu.2.2.1)))))
  have hlfM : '\n' ∉ payloadPiped an adminPassword muteTag u :=
    notMem_append han.2.2.2
      (notMem_cons (by decide)
        (notMem_append (by decide)
          (notMem_cons (by decide)
            (notMem_append (by decide) (notMem_cons (by decide) hu.2.2.2)))))
  have hcrU : '\r' ∉ payloadPiped an adminPassword unmuteTag u :=
    notMem_append han.2.2.1
      (notMem_cons (by decide)
        (notMem_append (by decide)
          (notMem_cons (by decide)
            (notMem_append (by decide) (notMem_cons (by decide) hu.2.2.1)))))
  have hlfU : '\n' ∉ payloadPiped an adminPassword unmuteTag u :=
    notMem_append han.2.2.2
      (notMem_cons (by decide)
        (notMem_append (by decide)
          (notMem_cons (by decide)
            (notMem_append (by decide) (notMem_cons (by decide) hu.2.2.2)))))
  have hfindG : find_client_by_name (adminGrant st a).clients u = some i := by
    show find_client_by_name
      (setClient st.clients a (fun c => { c with is_admin := true })) u = some i
    rw [find_client_by_name_setClient st.clients a
      (fun c => { c with is_admin := true }) u (fun c => ⟨rfl, rfl⟩)]
    exact hfind
  have hfindM : find_client_by_name (adminGrant (muteState st a i) a).clients u = some i := by
    show find_client_by_name
      (setClient
        (setClient (setClient st.clients a (fun c => { c with is_admin := true })) i
          (fun c => { c with muted := true }))
        a (fun c => { c with is_admin := true })) u = some i
    rw [find_client_by_name_setClient _ a
          (fun c => { c with is_admin := true }) u (fun c => ⟨rfl, rfl⟩),
        find_client_by_name_setClient _ i
          (fun c => { c with muted := true }) u (fun c => ⟨rfl, rfl⟩),
        find_client_by_name_setClient _ a
          (fun c => { c with is_admin := true }) u (fun c => ⟨rfl, rfl⟩)]
    exact hfind
  refine ⟨?_, ?_, ?_, ?_, rfl, ?_⟩
  · unfold handle_parent_message
    rw [parseLine_adminW _ hcrM hlfM]
    show adminStep s st a (payloadPiped an adminPassword muteTag u) = _
    unfold adminStep
    rw [admin_split_piped an adminPassword muteTag u han.1 han.2.1
      (by decide) (by decide) (by decide) (by decide) (by decide)]
    dsimp only
    rw [admin_args_piped u hu.1 hu.2.1]
    rw [adminDispatch_mute s st a u i hfindG]
    rfl
  · have hcM : (muteState st a i).clients[i]? =
        some { (getClient (adminGrant st a) i) with muted := true } := by
      show (setClient (adminGrant st a).clients i _)[i]? = _
      have hlenG : i < (adminGrant st a).clients.length := by
        show i < (setClient st.clients a _).length
        rw [length_setClient]
        exact hlen
      have hcG : (adminGrant st a).clients[i]? = some (adminGrant st a).clients[i] :=
        List.getElem?_eq_getElem hlenG
      rw [getElem?_setClient_self _ i _ _ hcG]
      unfold getClient
      rw [hcG]
      rfl
    have hmuted : (getClient (muteState st a i) i).muted = true := by
      unfold getClient
      rw [hcM]
      rfl
    unfold handle_parent_message
    rw [parseLine_msgW u r text hu hr htext]
    show msgStep s (muteState st a i) i u r text = _
    unfold msgStep
    rw [if_pos hmuted]
  · unfold handle_parent_message
    rw [parseLine_adminW _ hcrU hlfU]
    show adminStep s (muteState st a i) a (payloadPiped an adminPassword unmuteTag u) = _
    unfold adminStep
    rw [admin_split_piped an adminPassword unmuteTag u han.1 han.2.1
      (by decide) (by decide) (by decide) (by decide) (by decide)]
    dsimp only
    rw [admin_args_piped u hu.1 hu.2.1]
    rw [adminDispatch_unmute s (muteState st a i) a u i hfindM]
    rfl
  · have hcU : (unmuteState st a i).clients[i]? =
        some { (getClient (adminGrant (muteState st a i) a) i) with muted := false } := by
      show (setClient (adminGrant (muteState st a i) a).clients i _)[i]? = _
      have hlenU : i < (adminGrant (muteState st a i) a).clients.length := by
        show i < (setClient (setClient (setClient st.clients a _) i _) a _).length
        rw [length_setClient, length_setClient, length_setClient]
        exact hlen
      have hcG : (adminGrant (muteState st a i) a).clients[i]? =
          some (adminGrant (muteState st a i) a).clients[i] :=
        List.getElem?_eq_getElem hlenU
      rw [getElem?_setClient_self _ i _ _ hcG]
      unfold getClient
      rw [hcG]
      rfl
    have hunmuted : (getClient (unmuteState st a i) i).muted = false := by
      unfold getClient
      rw [hcU]
      rfl
    unfold handle_parent_message
    rw [parseLine_msgW u r text hu hr htext]
    show msgStep s (unmuteState st a i) i u r text = _
    unfold msgStep
    rw [if_neg (by rw [hunmuted]; exact Bool.false_ne_true)]
  · intro k c hk hcon hrm
    unfold broadcast_to_room
    simp only
    by_cases hg : r = globalRoom
    · rw [if_pos hg, deliverIf_mem]
      exact ⟨k, c, by omega, hk, hcon, rfl⟩
    · rw [if_neg hg, deliverIf_mem]
      refine ⟨k, c, by omega, hk, ?_, rfl⟩
      rw [Bool.and_eq_true, beq_iff_eq]
      exact ⟨hcon, hrm⟩

theorem mute_unmute_flow_wit :
    handle_parent_message (fun t => t) demoSt 0
        (wire1 adminTag (payloadPiped ("n".toList) adminPassword muteTag ("u".toList))) =
      (muteState demoSt 0 1, [(1, mutedByAdminMsg)]) ∧
    handle_parent_message (fun t => t) (muteState demoSt 0 1) 1
        (wire3 msgTag ("u".toList) ("room1".toList) ("hello".toList)) =
      (muteState demoSt 0 1, [(1, mutedReplyMsg)]) ∧
    handle_parent_message (fun t => t) (muteState demoSt 0 1) 0
        (wire1 adminTag (payloadPiped ("n".toList) adminPassword unmuteTag ("u".toList))) =
      (unmuteState demoSt 0 1, [(1, unmutedByAdminMsg)]) ∧
    handle_parent_message (fun t => t) (unmuteState demoSt 0 1) 1
        (wire3 msgTag ("u".toList) ("room1".toList) ("hello".toList)) =
      broadcast_to_room (fun t => t) (unmuteState demoSt 0 1) ("room1".toList)
        ("u".toList) ("hello".toList) ∧
    (broadcast_to_room (fun t => t) (unmuteState demoSt 0 1) ("room1".toList)
        ("u".toList) ("hello".toList)).1.logs =
      append_room_log (unmuteState demoSt 0 1).logs ("room1".toList)
        (bcastLine ("room1".toList) ("u".toList) ("hello".toList)) ∧
    (∀ k c, (unmuteState demoSt 0 1).clients[k]? = some c → c.connected = true →
      c.room = "room1".toList →
      (k, bcastLine ("room1".toList) ("u".toList) ("hello".toList) ++ nl) ∈
        (broadcast_to_room (fun t => t) (unmuteState demoSt 0 1) ("room1".toList)
          ("u".toList) ("hello".toList)).2) :=
  mute_unmute_flow (fun t => t) demoSt 0 1 ("n".toList) ("u".toList) ("room1".toList)
    ("hello".toList) (by decide) (by decide) (by decide) (by decide) (by decide)

set_option maxRecDepth 100000 in
/-- C2 counterexample: the per-sender dedup buffer keeps only 511 bytes
(`strncpy(last_appeal_msg[idx], message, 511)`), so a 512-byte appeal sent
twice with identical text is forwarded to the admin again on the second
attempt, and the "already sent" reply is never produced. -/
theorem appeal_dedup_cex :
    (0, appealLine ("u".toList) longAppealText) ∈
      (handle_parent_message (fun t => t)
        ((handle_parent_message (fun t => t) demoSt 1 longAppealWire).1) 1 longAppealWire).2 ∧
    (1, alreadySentMsg) ∉
      (handle_parent_message (fun t => t)
        ((handle_parent_message (fun t => t) demoSt 1 longAppealWire).1) 1 longAppealWire).2 := by
  decide

/-- C2 (amended): for a sender whose name resolves to a slot and an appeal
text that is nonempty and at most 511 bytes (the capacity the dedup buffer
retains) and differs from the recorded last appeal, the appeal is recorded
and forwarded exactly once to every connected admin session with the
admin-count reply (or the distinct no-admins reply when none are online),
and an identical second appeal is answered with the "already sent" reply
and not forwarded. -/
theorem appeal_dedup_amended (s : Str → Str) (st : ServerState) (i j : Nat)
    (sender text : Str)
    (hs : cleanTok sender) (ht : cleanTxt text) (hlen : text.length ≤ 511)
    (hj : find_client_by_name st.clients sender = some j)
    (hjlen : j < st.lastAppeal.length)
    (hnew : (st.lastAppeal[j]?).getD [] ≠ text) :
    handle_parent_message s st i (wire2 appealTag sender text) =
      ({ st with lastAppeal := st.lastAppeal.set j text },
       deliverIf (fun c => c.connected && c.is_admin) (appealLine sender text) st.clients 0 ++
         [(i, if countIf (fun c => c.connected && c.is_admin) st.clients = 0 then noAdminsMsg
              else appealSentMsg (countIf (fun c => c.connected && c.is_admin) st.clients))]) ∧
    (∀ k c, st.clients[k]? = some c → c.connected = true → c.is_admin = true →
      (k, appealLine sender text) ∈
        (handle_parent_message s st i (wire2 appealTag sender text)).2) ∧
    handle_parent_message s { st with lastAppeal := st.lastAppeal.set j text } i
        (wire2 appealTag sender text) =
      ({ st with lastAppeal := st.lastAppeal.set j text }, [(i, alreadySentMsg)]) := by
  have hp := parseLine_appealW sender text hs ht
  have htake : text.take 511 = text := List.take_of_length_le hlen
  have hmain : handle_parent_message s st i (wire2 appealTag sender text) =
      ({ st with lastAppeal := st.lastAppeal.set j text },
       deliverIf (fun c => c.connected && c.is_admin) (appealLine sender text) st.clients 0 ++
         [(i, if countIf (fun c => c.connected && c.is_admin) st.clients = 0 then noAdminsMsg
              else appealSentMsg (countIf (fun c => c.connected && c.is_admin) st.clients))]) := by
    unfold handle_parent_message
    rw [hp]
    show appealStep st i sender text = _
    unfold appealStep
    rw [hj]
    dsimp only
    rw [if_neg (fun h => hnew h.2)]
    unfold appealForward
    rw [htake]
    dsimp only
    rw [length_deliverIf]
  refine ⟨hmain, ?_, ?_⟩
  · intro k c hk hcon hadm
    rw [hmain]
    apply List.mem_append_left
    rw [deliverIf_mem]
    exact ⟨k, c, by omega, hk, by simp [hcon, hadm], rfl⟩
  · have hj1 : find_client_by_name
        ({ st with lastAppeal := st.lastAppeal.set j text } : ServerState).clients sender =
        some j := hj
    unfold handle_parent_message
    rw [hp]
    show appealStep { st with lastAppeal := st.lastAppeal.set j text } i sender text = _
    unfold appealStep
    rw [hj1]
    dsimp only
    have hset : (st.lastAppeal.set j text)[j]? = some text :=
      List.getElem?_set_eq_of_lt text hjlen
    rw [hset]
    rw [if_pos ⟨ht.1, rfl⟩]

theorem appeal_dedup_amended_wit :
    handle_parent_message (fun t => t) demoSt 1 (wire2 appealTag ("u".toList) ("help".toList)) =
      ({ demoSt with lastAppeal := demoSt.lastAppeal.set 1 ("help".toList) },
       deliverIf (fun c => c.connected && c.is_admin)
           (appealLine ("u".toList) ("help".toList)) demoSt.clients 0 ++
         [(1, if countIf (fun c => c.connected && c.is_admin) demoSt.clients = 0 then noAdminsMsg
              else appealSentMsg (countIf (fun c => c.connected && c.is_admin) demoSt.clients))]) ∧
    (∀ k c, demoSt.clients[k]? = some c → c.connected = true → c.is_admin = true →
      (k, appealLine ("u".toList) ("help".toList)) ∈
        (handle_parent_message (fun t => t) demoSt 1
          (wire2 appealTag ("u".toList) ("help".toList))).2) ∧
    handle_parent_message (fun t => t)
        { demoSt with lastAppeal := demoSt.lastAppeal.set 1 ("help".toList) } 1
        (wire2 appealTag ("u".toList) ("help".toList)) =
      ({ demoSt with lastAppeal := demoSt.lastAppeal.set 1 ("help".toList) },
       [(1, alreadySentMsg)]) :=
  appeal_dedup_amended (fun t => t) demoSt 1 1 ("u".toList) ("help".toList)
    (by decide) (by decide) (by decide) (by decide) (by decide) (by decide)

/-- C6 counterexample: with name "n", password "a b" (a space inside),
action KICK and argument "bob", the fully piped payload parses to
`(n, "a b", KICK, bob)` but the hybrid payload splits the third field at
its first space, yielding password "a", action word "b" — a different
tuple, so the two wire shapes are not equivalent for every string. -/
theorem admin_dual_format_cex :
    admin_tuple (payloadPiped ("n".toList) ("a b".toList) kickTag ("bob".toList)) ≠
      admin_tuple (payloadHybrid ("n".toList) ("a b".toList) kickTag ("bob".toList)) := by
  decide

/-- C6 (amended): for delimiter-clean fields — name, password and action
nonempty and free of `'|'`, password and action also free of spaces, args
nonempty and free of `'|'` — the piped and the hybrid ADMIN payloads parse
to the same `(name, password, action, args)` tuple, and the whole ADMIN
step behaves identically on both wire shapes. -/
theorem admin_dual_format_equiv (n pw act args : Str)
    (hn0 : n ≠ []) (hn1 : '|' ∉ n)
    (hpw0 : pw ≠ []) (hpw1 : '|' ∉ pw) (hpw2 : ' ' ∉ pw)
    (hact0 : act ≠ []) (hact1 : '|' ∉ act) (hact2 : ' ' ∉ act)
    (hargs0 : args ≠ []) (hargs1 : '|' ∉ args) :
    admin_tuple (payloadPiped n pw act args) = some (n, pw, some act, some args) ∧
    admin_tuple (payloadHybrid n pw act args) = some (n, pw, some act, some args) ∧
    (∀ (s : Str → Str) (st : ServerState) (i : Nat),
      adminStep s st i (payloadPiped n pw act args) =
        adminStep s st i (payloadHybrid n pw act args)) := by
  have hsp := admin_split_piped n pw act args hn0 hn1 hpw0 hpw1 hact0 hact1 hact2
  have hsh := admin_split_hybrid n pw act args hn0 hn1 hpw0 hpw1 hpw2 hact1 hact2 hargs1
  have hap : admin_args none args = some args := admin_args_piped args hargs0 hargs1
  refine ⟨?_, ?_, ?_⟩
  · unfold admin_tuple
    rw [hsp]
    simp only [Option.map_some']
    rw [hap]
  · unfold admin_tuple
    rw [hsh]
    rfl
  · intro s st i
    unfold adminStep
    rw [hsp, hsh]
    dsimp only
    rw [hap]
    rfl

theorem admin_dual_format_equiv_wit :
    admin_tuple (payloadPiped ("n".toList) ("pw1".toList) kickTag ("bob".toList)) =
      some ("n".toList, "pw1".toList, some kickTag, some ("bob".toList)) ∧
    admin_tuple (payloadHybrid ("n".toList) ("pw1".toList) kickTag ("bob".toList)) =
      some ("n".toList, "pw1".toList, some kickTag, some ("bob".toList)) ∧
    adminStep (fun t => t) demoSt 0 (payloadPiped ("n".toList) ("pw1".toList) kickTag ("bob".toList)) =
      adminStep (fun t => t) demoSt 0 (payloadHybrid ("n".toList) ("pw1".toList) kickTag ("bob".toList)) := by
  obtain ⟨h1, h2, h3⟩ := admin_dual_format_equiv ("n".toList) ("pw1".toList) kickTag ("bob".toList)
    (by decide) (by decide) (by decide) (by decide) (by decide) (by decide) (by decide)
    (by decide) (by decide) (by decide)
  exact ⟨h1, h2, h3 (fun t => t) demoSt 0⟩

set_option maxRecDepth 100000 in
/-- C9 counterexample: with the room table full (128 rooms), a JOIN
referencing the new room "b" is not rejected and does mutate state: the
session's room is updated to "b", the reply is the normal Welcome followed
by the join-notice broadcast, and no capacity message is produced. -/
theorem room_capacity_cex :
    (handle_parent_message (fun t => t) fullRoomsSt 0
        (wire2 joinTag ("u".toList) ("b".toList))).1 ≠ fullRoomsSt ∧
    (handle_parent_message (fun t => t) fullRoomsSt 0
        (wire2 joinTag ("u".toList) ("b".toList))).2 =
      [(0, welcomeMsg ("u".toList) ("b".toList)),
       (0, bcastLine ("b".toList) serverSender joinedNotice ++ nl)] := by
  decide

/-- C9 (amended): when the room table is already at `MAX_ROOMS`, an
operation referencing a new room name leaves the room set unchanged, but it
is not rejected and no user-visible capacity message is produced: a JOIN
still updates the session's name and room, replies Welcome, and broadcasts
the join notice. -/
theorem room_capacity_amended (s : Str → Str) (st : ServerState) (i : Nat) (u r : Str)
    (hu : cleanTok u) (hr : cleanTok r)
    (hfull : ¬st.rooms.length < MAX_ROOMS) :
    (handle_parent_message s st i (wire2 joinTag u r)).1.rooms = st.rooms ∧
    (handle_parent_message s st i (wire2 joinTag u r)).1.clients =
      setClient st.clients i (fun c => { c with username := u.take 63, room := r.take 63 }) ∧
    (handle_parent_message s st i (wire2 joinTag u r)).2 =
      (i, welcomeMsg u r) ::
        (broadcast_to_room s
          { st with
              clients := setClient st.clients i
                (fun c => { c with username := u.take 63, room := r.take 63 }),
              rooms := add_room_if_missing st.rooms r }
          r serverSender joinedNotice).2 := by
  have hadd : add_room_if_missing st.rooms r = st.rooms := add_room_full st.rooms r hfull
  have hstep : handle_parent_message s st i (wire2 joinTag u r) = joinStep s st i u r := by
    unfold handle_parent_message
    rw [parseLine_joinW u r hu hr]
    rfl
  rw [hstep]
  unfold joinStep broadcast_to_room
  dsimp only
  rw [hadd, hadd]
  exact ⟨rfl, rfl, rfl⟩

set_option maxRecDepth 100000 in
theorem room_capacity_amended_wit :
    (handle_parent_message (fun t => t) fullRoomsSt 0
        (wire2 joinTag ("w".toList) ("b".toList))).1.rooms = fullRoomsSt.rooms ∧
    (handle_parent_message (fun t => t) fullRoomsSt 0
        (wire2 joinTag ("w".toList) ("b".toList))).1.clients =
      setClient fullRoomsSt.clients 0
        (fun c => { c with username := ("w".toList).take 63, room := ("b".toList).take 63 }) ∧
    (handle_parent_message (fun t => t) fullRoomsSt 0
        (wire2 joinTag ("w".toList) ("b".toList))).2 =
      (0, welcomeMsg ("w".toList) ("b".toList)) ::
        (broadcast_to_room (fun t => t)
          { fullRoomsSt with
              clients := setClient fullRoomsSt.clients 0
                (fun c => { c with username := ("w".toList).take 63, room := ("b".toList).take 63 }),
              rooms := add_room_if_missing fullRoomsSt.rooms ("b".toList) }
          ("b".toList) serverSender joinedNotice).2 :=
  room_capacity_amended (fun t => t) fullRoomsSt 0 ("w".toList) ("b".toList)
    (by decide) (by decide) (by decide)

/- ------------------------------------------------------------------ -/
/- Lemmas: the room table only ever grows. -/
/- ------------------------------------------------------------------ -/

theorem rooms_mono_exec (s : Str → Str) (st : ServerState) (i : Nat) (cmd : Cmd) (x : Str)
    (hx : x ∈ st.rooms) : x ∈ (execCmd s st i cmd).1.rooms := by
  cases cmd with
  | join u room =>
    show x ∈ (joinStep s st i u room).1.rooms
    unfold joinStep broadcast_to_room
    dsimp only
    exact mem_add_room _ _ _ (mem_add_room _ _ _ hx)
  | msg u room text =>
    show x ∈ (msgStep s st i u room text).1.rooms
    unfold msgStep
    by_cases hm : (getClient st i).muted
    · rw [if_pos hm]
      exact hx
    · rw [if_neg hm]
      unfold broadcast_to_room
      dsimp only
      exact mem_add_room _ _ _ hx
  | pm a b t =>
    show x ∈ (pmStep s st i a b t).1.rooms
    unfold pmStep
    cases send_private s st.clients a b t with
    | none => exact hx
    | some d => exact hx
  | appeal a t =>
    show x ∈ (appealStep st i a t).1.rooms
    unfold appealStep appealForward
    cases find_client_by_name st.clients a with
    | none => exact hx
    | some j =>
      dsimp only
      by_cases hd : ((st.lastAppeal[j]?).getD [] ≠ [] ∧ (st.lastAppeal[j]?).getD [] = t)
      · rw [if_pos hd]
        exact hx
      · rw [if_neg hd]
        exact hx
  | history room =>
    show x ∈ (historyStep st i room).1.rooms
    unfold historyStep
    cases logLookup st.logs room with
    | none => exact hx
    | some content => exact hx
  | roomsQ =>
    show x ∈ (roomsStep st i).1.rooms
    unfold roomsStep
    by_cases he : st.rooms = []
    · rw [if_pos he]
      exact hx
    · rw [if_neg he]
      exact hx
  | quitC => exact hx
  | adminC rest =>
    show x ∈ (adminStep s st i rest).1.rooms
    unfold adminStep
    cases admin_split rest with
    | none => exact hx
    | some t5 =>
      dsimp only
      unfold adminDispatch
      by_cases hpw : t5.2.1 ≠ adminPassword
      · rw [if_pos hpw]
        exact hx
      · rw [if_neg hpw]
        dsimp only
        have hx1 : x ∈ (adminGrant st i).rooms := hx
        cases t5.2.2.1 with
        | none => exact hx1
        | some w =>
          dsimp only
          by_cases h1 : w = kickTag
          · rw [if_pos h1]
            cases admin_args t5.2.2.2.1 t5.2.2.2.2 with
            | none => exact hx1
            | some target =>
              dsimp only
              cases find_client_by_name (adminGrant st i).clients target with
              | none => exact hx1
              | some idx => exact hx1
          · rw [if_neg h1]
            by_cases h2 : w = muteTag
            · rw [if_pos h2]
              cases admin_args t5.2.2.2.1 t5.2.2.2.2 with
              | none => exact hx1
              | some target =>
                dsimp only
                cases find_client_by_name (adminGrant st i).clients target with
                | none => exact hx1
                | some idx => exact hx1
            · rw [if_neg h2]
              by_cases h3 : w = unmuteTag
              · rw [if_pos h3]
                cases admin_args t5.2.2.2.1 t5.2.2.2.2 with
                | none => exact hx1
                | some target =>
                  dsimp only
                  cases find_client_by_name (adminGrant st i).clients target with
                  | none => exact hx1
                  | some idx => exact hx1
              · rw [if_neg h3]
                by_cases h4 : w = bcastTag
                · rw [if_pos h4]
                  unfold broadcast_to_room
                  dsimp only
                  exact mem_add_room _ _ _ hx1
                · rw [if_neg h4]
                  by_cases h5 : w = roomsTag
                  · rw [if_pos h5]
                    by_cases he : (adminGrant st i).rooms = []
                    · rw [if_pos he]
                      exact hx1
                    · rw [if_neg he]
                      exact hx1
                  · rw [if_neg h5]
                    by_cases h6 : w = usersTag
                    · rw [if_pos h6]
                      exact hx1
                    · rw [if_neg h6]
                      exact hx1
  | unknown w => exact hx
  | dropped => exact hx

theorem rooms_accept (st : ServerState) (x : Str) (hx : x ∈ st.rooms) :
    x ∈ (accept_and_spawn st).1.rooms := by
  unfold accept_and_spawn
  cases find_free_slot st.clients with
  | none => exact hx
  | some slot => exact hx

theorem lobby_mem_reachable (st : ServerState) (h : Reachable st) :
    lobbyRoom ∈ st.rooms := by
  induction h with
  | init => decide
  | msg st' s i buf hr ih => exact rooms_mono_exec s st' i (parseLine buf) lobbyRoom ih
  | accept st' hr ih => exact rooms_accept st' lobbyRoom ih
  | disconnect st' i hr ih => exact ih

/-- C10: in every broker state reachable from startup the room set contains
"lobby" (registered during initialization), so the room count is never zero
and the ROOMS command always takes the listing branch, never the "No rooms"
reply. -/
theorem lobby_invariant (st : ServerState) (h : Reachable st) (s : Str → Str) (i : Nat) :
    lobbyRoom ∈ st.rooms ∧ st.rooms ≠ [] ∧
    (handle_parent_message s st i roomsWire).2 = st.rooms.map (fun r => (i, r ++ nl)) := by
  have hlobby : lobbyRoom ∈ st.rooms := lobby_mem_reachable st h
  have hne : st.rooms ≠ [] := by
    intro hnil
    rw [hnil] at hlobby
    exact List.not_mem_nil lobbyRoom hlobby
  refine ⟨hlobby, hne, ?_⟩
  show (roomsStep st i).2 = _
  unfold roomsStep
  rw [if_neg hne]

theorem lobby_invariant_wit :
    lobbyRoom ∈ initState.rooms ∧ initState.rooms ≠ [] ∧
    (handle_parent_message (fun t => t) initState 0 roomsWire).2 =
      initState.rooms.map (fun r => (0, r ++ nl)) :=
  lobby_invariant initState Reachable.init (fun t => t) 0
